import Mathlib

/-!
# Verification of the Appender resource-container core

A shallow embedding of the Appender repository (`src/core.rs`, `src/util.rs`,
`src/main.rs`): a tool that appends sentinel-delimited, optionally compressed
resource entries to the tail of a host file and later lists, extracts or
excises them.

Modelling conventions:
* Files are `List Nat` of byte values; Rust strings are `List Char`
  (Unicode scalar values), serialized through a standard UTF-8 byte model.
* The header codec is `bincode` v1 with its default configuration:
  little-endian fixed-width integers, strings as a `u64` byte length followed
  by UTF-8 bytes, fieldless enums as a `u32` variant index, trailing bytes
  ignored by `deserialize`.
* Machine integers are `Nat` with explicit bounds where overflow matters.
* `assert!` (a process-fatal panic, not a checked error) is modelled by the
  `PanicOr` outcome type.
* Filesystem state, where a claim needs it, is a function from paths
  (component lists) to optional file contents.
-/

set_option maxRecDepth 3000

namespace Appender

/-! ## UTF-8 byte model (Rust `String` wire format used by bincode) -/

/-- UTF-8 encoding of one Unicode scalar value, as byte values. -/
def utf8Char (c : Char) : List Nat :=
  let n := c.toNat
  if n < 128 then [n]
  else if n < 2048 then [192 + n / 64, 128 + n % 64]
  else if n < 65536 then [224 + n / 4096, 128 + n / 64 % 64, 128 + n % 64]
  else [240 + n / 262144, 128 + n / 4096 % 64, 128 + n / 64 % 64, 128 + n % 64]

/-- UTF-8 encoding of a string (a list of Unicode scalar values). -/
def utf8Encode (s : List Char) : List Nat :=
  (s.map utf8Char).flatten

/-- Decode one UTF-8-encoded scalar value from the front of a byte list,
returning the character and the remaining bytes.  Rejects overlong forms,
surrogates and out-of-range values, as Rust's `String::from_utf8` does. -/
def utf8DecodeChar : List Nat → Option (Char × List Nat)
  | [] => none
  | b0 :: rest =>
    if b0 < 128 then
      some (Char.ofNat b0, rest)
    else if b0 < 194 then none
    else if b0 < 224 then
      match rest with
      | b1 :: rest1 =>
        if 128 ≤ b1 ∧ b1 < 192 then
          some (Char.ofNat ((b0 - 192) * 64 + (b1 - 128)), rest1)
        else none
      | _ => none
    else if b0 < 240 then
      match rest with
      | b1 :: b2 :: rest2 =>
        if 128 ≤ b1 ∧ b1 < 192 ∧ 128 ≤ b2 ∧ b2 < 192 then
          let n := (b0 - 224) * 4096 + (b1 - 128) * 64 + (b2 - 128)
          if 2048 ≤ n ∧ ¬(55296 ≤ n ∧ n ≤ 57343) then some (Char.ofNat n, rest2) else none
        else none
      | _ => none
    else if b0 < 245 then
      match rest with
      | b1 :: b2 :: b3 :: rest3 =>
        if 128 ≤ b1 ∧ b1 < 192 ∧ 128 ≤ b2 ∧ b2 < 192 ∧ 128 ≤ b3 ∧ b3 < 192 then
          let n := (b0 - 240) * 262144 + (b1 - 128) * 4096 + (b2 - 128) * 64 + (b3 - 128)
          if 65536 ≤ n ∧ n < 1114112 then some (Char.ofNat n, rest3) else none
        else none
      | _ => none
    else none

/-- Decode a whole byte list as UTF-8; the first argument is fuel, set to the
list length by `utf8Decode` (each scalar value consumes at least one byte). -/
def utf8DecodeAux : Nat → List Nat → Option (List Char)
  | _, [] => some []
  | 0, _ :: _ => none
  | fuel + 1, b :: rest =>
    match utf8DecodeChar (b :: rest) with
    | none => none
    | some (c, rest1) => (utf8DecodeAux fuel rest1).map (c :: ·)

/-- Decode a whole byte list as UTF-8 (Rust `String::from_utf8`): succeeds
iff the bytes are exactly a valid UTF-8 encoding, consuming all of them. -/
def utf8Decode (l : List Nat) : Option (List Char) :=
  utf8DecodeAux l.length l

/-! ## Little-endian fixed-width integers (bincode default configuration) -/

/-- Little-endian `u64` encoding (8 bytes); values are reduced mod 2^64 as on
the machine. -/
def le64 (n : Nat) : List Nat :=
  [n % 256, n / 256 % 256, n / 65536 % 256, n / 16777216 % 256,
   n / 4294967296 % 256, n / 1099511627776 % 256, n / 281474976710656 % 256,
   n / 72057594037927936 % 256]

/-- Read a little-endian `u64` from the front of a byte list. -/
def readLe64 : List Nat → Option (Nat × List Nat)
  | b0 :: b1 :: b2 :: b3 :: b4 :: b5 :: b6 :: b7 :: rest =>
    some (b0 + b1 * 256 + b2 * 65536 + b3 * 16777216 + b4 * 4294967296 +
      b5 * 1099511627776 + b6 * 281474976710656 + b7 * 72057594037927936, rest)
  | _ => none

def le32 (n : Nat) : List Nat :=
  [n % 256, n / 256 % 256, n / 65536 % 256, n / 16777216 % 256]

/-- Read a little-endian `u32` from the front of a byte list. -/
def readLe32 : List Nat → Option (Nat × List Nat)
  | b0 :: b1 :: b2 :: b3 :: rest =>
    some (b0 + b1 * 256 + b2 * 65536 + b3 * 16777216, rest)
  | _ => none

/-! ## Resource header (`ResourceHead` in `src/core.rs`) and its bincode codec -/

/-- Compression mode (`CompressMode` in `src/core.rs`). -/
inductive CompressMode where
  | none : CompressMode
  | compress : CompressMode
deriving DecidableEq, Repr

/-- bincode enum variant index of a `CompressMode` value. -/
def CompressMode.tag : CompressMode → Nat
  | .none => 0
  | .compress => 1

/-- The resource header record (`ResourceHead` in `src/core.rs`): all five
text fields are Rust `String`s, modelled as lists of Unicode scalar values. -/
structure ResourceHead where
  version : List Char
  id : List Char
  name : List Char
  length : List Char
  size : List Char
  compress : CompressMode
deriving DecidableEq, Repr

/-- bincode v1 serialization of one `String` field: `u64` little-endian byte
length followed by the UTF-8 bytes. -/
def encodeStr (s : List Char) : List Nat :=
  le64 (utf8Encode s).length ++ utf8Encode s

/-- bincode v1 deserialization of one `String` field. -/
def readStr (l : List Nat) : Option (List Char × List Nat) :=
  match readLe64 l with
  | Option.none => Option.none
  | some (n, rest) =>
    if n ≤ rest.length then
      match utf8Decode (rest.take n) with
      | Option.none => Option.none
      | some s => some (s, rest.drop n)
    else Option.none

/-- `ResourceHead::to_bytes` — bincode v1 serialization of the whole header:
the five string fields in declaration order, then the enum tag as a `u32`. -/
def encodeHead (h : ResourceHead) : List Nat :=
  encodeStr h.version ++ encodeStr h.id ++ encodeStr h.name ++
    encodeStr h.length ++ encodeStr h.size ++ le32 h.compress.tag

/-- `ResourceHead::from` — bincode v1 deserialization.  Reads the six fields
from the front of the byte list; trailing bytes are ignored, as by
`bincode::deserialize`. -/
def decodeHead (l : List Nat) : Option ResourceHead :=
  match readStr l with
  | Option.none => Option.none
  | some (version, r1) =>
    match readStr r1 with
    | Option.none => Option.none
    | some (id, r2) =>
      match readStr r2 with
      | Option.none => Option.none
      | some (name, r3) =>
        match readStr r3 with
        | Option.none => Option.none
        | some (length, r4) =>
          match readStr r4 with
          | Option.none => Option.none
          | some (size, r5) =>
            match readLe32 r5 with
            | Option.none => Option.none
            | some (tag, _) =>
              if tag = 0 then some ⟨version, id, name, length, size, .none⟩
              else if tag = 1 then some ⟨version, id, name, length, size, .compress⟩
              else Option.none

/-- `ResourceHead::get_len` — the serialized byte length of the header. -/
def headLen (h : ResourceHead) : Nat :=
  (encodeHead h).length

/-! ## Constants and small utilities from `src/core.rs` / `src/util.rs` -/

/-- `BUFFER_SIZE` — the streaming buffer size (512 KiB). -/
def BUFFER_SIZE : Nat := 1024 * 512

/-- `MAX_LENGTH_SIZE` — the maximum representable resource size (1024 GiB). -/
def MAX_LENGTH_SIZE : Nat := 1024 * 1024 * 1024 * 1024

/-- `MAX_ID_LENGTH` — maximum id length in Unicode scalar values. -/
def MAX_ID_LENGTH : Nat := 64

/-- `MAX_NAME_LENGTH` — maximum name length in Unicode scalar values. -/
def MAX_NAME_LENGTH : Nat := 255

/-- `RESOURCE_MAGIC` — the 16-byte start sentinel. -/
def MAGIC : List Nat :=
  [0x89, 0x4F, 0x76, 0x65, 0x72, 0x6C, 0x61, 0x79, 0x44, 0x61, 0x74, 0x61, 0x0d, 0x0a, 0x1a, 0x0a]

/-- `END_IDENTIFIER` — the 5-byte end sentinel `ODEND`. -/
def ENDID : List Nat := [0x4F, 0x44, 0x45, 0x4E, 0x44]

/-- The decimal digits of a natural number, as characters. -/
def natRepr (n : Nat) : List Char :=
  (Nat.repr n).data

/-- Width of the `length`/`size` fields: `MAX_LENGTH_SIZE.to_string().len()`. -/
def lengthFieldWidth : Nat := (natRepr MAX_LENGTH_SIZE).length

/-- `format!("{:0>width$}", n)` — left-pad the decimal representation with
zeros to the given width (longer representations are kept unchanged). -/
def padZeroes (w : Nat) (s : List Char) : List Char :=
  List.replicate (w - s.length) '0' ++ s

/-- Outcome of a Rust computation that can `panic!` / fail an `assert!`:
a panic is process-fatal, not a checked error value. -/
inductive PanicOr (α : Type) where
  | panic : PanicOr α
  | ok : α → PanicOr α
deriving DecidableEq, Repr

def PanicOr.isPanic {α : Type} : PanicOr α → Bool
  | .panic => true
  | .ok _ => false

/-- The record built by `ResourceHead::new` once its assertions have passed
(argument order as in the source: id, length, size, name, compress). -/
def resourceHeadMk (id : List Char) (length size : Nat) (name : List Char)
    (cmode : CompressMode) : ResourceHead :=
  { version := "1.0.0".data
    id := id
    name := name
    length := padZeroes lengthFieldWidth (natRepr length)
    size := padZeroes lengthFieldWidth (natRepr size)
    compress := cmode }

/-- `ResourceHead::new`: `assert!`s that id and name respect their length
limits (counted in Unicode scalar values), then builds the record.  A failed
assertion is a panic, not a checked error. -/
def resourceHeadNew (id : List Char) (length size : Nat) (name : List Char)
    (cmode : CompressMode) : PanicOr ResourceHead :=
  if id.length ≤ MAX_ID_LENGTH then
    if name.length ≤ MAX_NAME_LENGTH then
      .ok (resourceHeadMk id length size name cmode)
    else .panic
  else .panic

/-- `ResourceHead::default()` = `new("", 0, 0, "", None)`. -/
def defaultHead : ResourceHead :=
  resourceHeadMk [] 0 0 [] CompressMode.none

/-- Rust `char::is_whitespace` (the Unicode `White_Space` property). -/
def isRustWhitespace (c : Char) : Bool :=
  c.toNat ∈ ([9, 10, 11, 12, 13, 32, 133, 160, 5760, 8192, 8193, 8194, 8195, 8196,
    8197, 8198, 8199, 8200, 8201, 8202, 8232, 8233, 8239, 8287, 12288] : List Nat)

/-- Rust `str::trim_start`. -/
def trimStart (s : List Char) : List Char :=
  s.dropWhile isRustWhitespace

/-- Rust `str::trim_end`. -/
def trimEnd (s : List Char) : List Char :=
  (s.reverse.dropWhile isRustWhitespace).reverse

/-- Rust `str::trim` — strip leading and trailing whitespace. -/
def trim (s : List Char) : List Char :=
  trimEnd (trimStart s)

/-- Rust `str::parse::<u64>` / `parse::<usize>`: an optional `+` sign, then
one or more decimal digits; overflow past `u64::MAX` is an error. -/
def parseNat (s : List Char) : Option Nat :=
  let digits := match s with
    | '+' :: rest => rest
    | _ => s
  if digits = [] ∨ ¬(digits.all Char.isDigit) then Option.none
  else
    let v := digits.foldl (fun acc c => acc * 10 + (c.toNat - 48)) 0
    if v < 18446744073709551616 then some v else Option.none

/-- Rust `str::parse::<i32>`: an optional sign, then one or more decimal
digits; overflow past the `i32` range is an error. -/
def parseI32 (s : List Char) : Option Int :=
  let signDigits : Bool × List Char := match s with
    | '+' :: rest => (false, rest)
    | '-' :: rest => (true, rest)
    | _ => (false, s)
  let neg := signDigits.1
  let digits := signDigits.2
  if digits = [] ∨ ¬(digits.all Char.isDigit) then Option.none
  else
    let v : Nat := digits.foldl (fun acc c => acc * 10 + (c.toNat - 48)) 0
    if neg then (if v ≤ 2147483648 then some (-(v : Int)) else Option.none)
    else (if v ≤ 2147483647 then some (v : Int) else Option.none)

/-- Tail of the `compare_version` loop once the first version has run out
of components: each remaining component of the second version is compared
against 0. -/
def cvRight : List (List Char) → Except Unit Ordering
  | [] => .ok .eq
  | y :: t2 =>
    match parseI32 y with
    | some i2 => if (0 : Int) ≠ i2 then .ok (if (0 : Int) > i2 then .gt else .lt)
        else cvRight t2
    | _ => .error ()

/-- The component-wise comparison loop of `compare_version` in
`src/util.rs`: at each index both components are parsed as `i32` (a missing
component counts as 0, a malformed one is an error), and the first unequal
pair decides the ordering. -/
def compareVersionAux : List (List Char) → List (List Char) → Except Unit Ordering
  | [], l2 => cvRight l2
  | x :: t1, l2 =>
    match l2 with
    | y :: t2 =>
      (match parseI32 x, parseI32 y with
       | some i1, some i2 =>
         if i1 ≠ i2 then .ok (if i1 > i2 then .gt else .lt) else compareVersionAux t1 t2
       | _, _ => .error ())
    | [] =>
      (match parseI32 x with
       | some i1 => if i1 ≠ 0 then .ok (if i1 > 0 then .gt else .lt)
           else compareVersionAux t1 []
       | _ => .error ())

/-- `compare_version` in `src/util.rs`: split both versions on `.` and
compare component-wise as `i32`s. -/
def compareVersion (v1 v2 : List Char) : Except Unit Ordering :=
  compareVersionAux (v1.splitOn '.') (v2.splitOn '.')

/-! ## Sentinel search (`memmem::Finder::find` over a byte slice) -/

/-- First occurrence of the 16-byte start sentinel in a byte list (the
`memmem::Finder::new(RESOURCE_MAGIC).find(..)` calls in `src/core.rs`). -/
def findMagicIn : List Nat → Option Nat
  | [] => Option.none
  | b :: rest =>
    if MAGIC.isPrefixOf (b :: rest) then some 0
    else (findMagicIn rest).map (· + 1)

/-- Proof-carrying form of the sentinel-position bound; the termination
arguments of the scan loops below consume it. -/
def findMagicInBound : ∀ (l : List Nat) (r : Nat), findMagicIn l = some r → r + 16 ≤ l.length := by
  intro l
  induction l with
  | nil => intro r h; simp [findMagicIn] at h
  | cons b rest ih =>
    intro r h
    rw [findMagicIn] at h
    split at h
    · next hp =>
      cases h
      have hlen := List.IsPrefix.length_le (List.isPrefixOf_iff_prefix.mp hp)
      have hm : MAGIC.length = 16 := rfl
      rw [hm] at hlen
      simp only [List.length_cons] at hlen ⊢
      omega
    · next hp =>
      rcases Option.map_eq_some'.mp h with ⟨r', hr', rfl⟩
      have := ih r' hr'
      simp only [List.length_cons]
      omega

/-! ## Scanner constants (`export_resource` / `find_resources_config`) -/

/-- `SEARCH_BUFFER_SIZE` — the 512 KiB scan window. -/
def SEARCH_BUFFER_SIZE : Nat := 1024 * 512

/-- `MAX_HEADER_SIZE` — hard cap assumed sufficient for any encoded header. -/
def MAX_HEADER_SIZE : Nat := 4096

/-- `overlap_size = MAX_HEADER_SIZE + RESOURCE_MAGIC.len()` — the window
overlap that prevents boundary-straddling sentinels from being missed. -/
def overlapSize : Nat := MAX_HEADER_SIZE + MAGIC.length

/-- The header-probe step shared verbatim by `export_resource` and
`find_resources_config`: if a full `MAX_HEADER_SIZE` window after the
sentinel fits in the buffer, decode from the buffer; otherwise re-read up to
`MAX_HEADER_SIZE` bytes from the file (a zero-byte read, like a decode
failure, makes the caller resume one byte past the sentinel). -/
def tryHeader (file : List Nat) (fileOffset : Nat) (buffer : List Nat) (absolutePos : Nat) :
    Option ResourceHead :=
  if absolutePos + MAGIC.length + MAX_HEADER_SIZE ≤ buffer.length then
    decodeHead (buffer.drop (absolutePos + MAGIC.length))
  else
    let headerBuffer := (file.drop (fileOffset + absolutePos + MAGIC.length)).take MAX_HEADER_SIZE
    if headerBuffer.length = 0 then Option.none
    else decodeHead headerBuffer

/-! ## `find_resources_config` — full scan (list/discovery) -/

/-- The inner `while let` of `find_resources_config`: repeatedly find the
next sentinel in the window, probe a header after it, record every
successfully decoded header, and resume one byte past the sentinel. -/
def scanWindowLoop (file : List Nat) (fileOffset : Nat) (buffer : List Nat)
    (searchStart : Nat) : List ResourceHead :=
  match hf : findMagicIn (buffer.drop searchStart) with
  | Option.none => []
  | some relativePos =>
    let absolutePos := searchStart + relativePos
    match tryHeader file fileOffset buffer absolutePos with
    | Option.none => scanWindowLoop file fileOffset buffer (absolutePos + 1)
    | some config => config :: scanWindowLoop file fileOffset buffer (absolutePos + 1)
termination_by buffer.length + 1 - searchStart
decreasing_by
  all_goals
    have hb := findMagicInBound _ _ hf
    rw [List.length_drop] at hb
    omega

/-- The outer window loop of `find_resources_config`: read a
`SEARCH_BUFFER_SIZE` window at `fileOffset`, scan it, and advance the offset
by `SEARCH_BUFFER_SIZE - overlap_size` until the window reaches the end of
the file. -/
def scanFile (file : List Nat) (fileOffset : Nat) : List ResourceHead :=
  let buffer := (file.drop fileOffset).take SEARCH_BUFFER_SIZE
  if buffer.length = 0 then []
  else
    let found := scanWindowLoop file fileOffset buffer 0
    if fileOffset + SEARCH_BUFFER_SIZE ≥ file.length then found
    else found ++ scanFile file (fileOffset + (SEARCH_BUFFER_SIZE - overlapSize))
termination_by file.length - fileOffset
decreasing_by
  simp only [SEARCH_BUFFER_SIZE, overlapSize, MAX_HEADER_SIZE, MAGIC, List.length_cons,
    List.length_nil, ge_iff_le, not_le] at *
  omega

/-- `find_resources_config`: the full ordered list of discovered headers.
(The `callback` parameter of the Rust function is side-effect-only and cannot
influence the returned list; it is omitted.) -/
def findResourcesConfig (file : List Nat) : List ResourceHead :=
  scanFile file 0

/-! ## `export_resource` — single-target extraction -/

/-- The typed failures `export_resource` can surface. -/
inductive ExportErr where
  | notFound
  | versionParse
  | versionMismatch
  | lengthParse
  | beyondEof
  | endMarker
  | decompressFailed
  | sizeParse
  | sizeMismatch
deriving DecidableEq, Repr

instance {ε α : Type} [DecidableEq ε] [DecidableEq α] : DecidableEq (Except ε α) := fun a b =>
  match a, b with
  | .error e, .error f => if h : e = f then isTrue (by rw [h]) else isFalse (by simp [h])
  | .ok x, .ok y => if h : x = y then isTrue (by rw [h]) else isFalse (by simp [h])
  | .error _, .ok _ => isFalse (by simp)
  | .ok _, .error _ => isFalse (by simp)

/-- Result of `export_resource`: the returned value together with the state
of the output path when the call returns (`Option.none` = no file there). -/
structure ExportResult where
  res : Except ExportErr Unit
  output : Option (List Nat)
deriving DecidableEq, Repr

/-- The matched-entry block of `export_resource` (`src/core.rs` lines
330-422): version gate, length parse, extent bounds check, end-sentinel
check, payload streaming to the output file, decompression handling, and the
final size verification.  The size verification reads
`output_file.metadata()` through the original file HANDLE: after the
compressed intermediate has been unlinked and the decompressed file renamed
into place, that handle still refers to the unlinked file, so the length
compared is the number of payload bytes written (`resource_length`), not the
length of the file now at the output path. -/
def exportFound (file : List Nat) (resourceStart : Nat) (config : ResourceHead)
    (decompressFn : List Nat → Option (List Nat)) : ExportResult :=
  match compareVersion config.version defaultHead.version with
  | .error _ => ⟨.error .versionParse, Option.none⟩
  | .ok ord =>
    if ord ≠ .eq then ⟨.error .versionMismatch, Option.none⟩
    else
      let headerLen := headLen config
      match parseNat (trim config.length) with
      | Option.none => ⟨.error .lengthParse, Option.none⟩
      | some resourceLength =>
        let endPos := resourceStart + MAGIC.length + headerLen + resourceLength
        if endPos + ENDID.length > file.length then ⟨.error .beyondEof, Option.none⟩
        else if (file.drop endPos).take ENDID.length ≠ ENDID then ⟨.error .endMarker, Option.none⟩
        else
          -- `File::create` then stream exactly `resource_length` bytes
          let written := (file.drop (resourceStart + MAGIC.length + headerLen)).take resourceLength
          if config.compress = CompressMode.compress then
            match decompressFn written with
            | Option.none => ⟨.error .decompressFailed, some written⟩
            | some decompressed =>
              match parseNat (trim config.size) with
              | Option.none => ⟨.error .sizeParse, some decompressed⟩
              | some expectedSize =>
                if written.length ≠ expectedSize then ⟨.error .sizeMismatch, Option.none⟩
                else ⟨.ok (), some decompressed⟩
          else
            match parseNat (trim config.size) with
            | Option.none => ⟨.error .sizeParse, some written⟩
            | some expectedSize =>
              if written.length ≠ expectedSize then ⟨.error .sizeMismatch, Option.none⟩
              else ⟨.ok (), some written⟩

/-- The inner `while let` of `export_resource`: find the next sentinel,
probe a header, and on a trimmed-id match run the matched-entry block;
otherwise resume one byte past the sentinel. -/
def exportWindowLoop (file : List Nat) (trimmedId : List Char)
    (decompressFn : List Nat → Option (List Nat)) (fileOffset : Nat) (buffer : List Nat)
    (searchStart : Nat) : Option ExportResult :=
  match hf : findMagicIn (buffer.drop searchStart) with
  | Option.none => Option.none
  | some relativePos =>
    let absolutePos := searchStart + relativePos
    match tryHeader file fileOffset buffer absolutePos with
    | Option.none => exportWindowLoop file trimmedId decompressFn fileOffset buffer (absolutePos + 1)
    | some config =>
      if trim config.id = trimmedId then
        some (exportFound file (fileOffset + absolutePos) config decompressFn)
      else exportWindowLoop file trimmedId decompressFn fileOffset buffer (absolutePos + 1)
termination_by buffer.length + 1 - searchStart
decreasing_by
  all_goals
    have hb := findMagicInBound _ _ hf
    rw [List.length_drop] at hb
    omega

/-- The outer window loop of `export_resource`. -/
def exportScan (file : List Nat) (trimmedId : List Char)
    (decompressFn : List Nat → Option (List Nat)) (fileOffset : Nat) : ExportResult :=
  let buffer := (file.drop fileOffset).take SEARCH_BUFFER_SIZE
  if buffer.length = 0 then ⟨.error .notFound, Option.none⟩
  else
    match exportWindowLoop file trimmedId decompressFn fileOffset buffer 0 with
    | some r => r
    | Option.none =>
      if fileOffset + SEARCH_BUFFER_SIZE ≥ file.length then ⟨.error .notFound, Option.none⟩
      else exportScan file trimmedId decompressFn (fileOffset + (SEARCH_BUFFER_SIZE - overlapSize))
termination_by file.length - fileOffset
decreasing_by
  simp only [SEARCH_BUFFER_SIZE, overlapSize, MAX_HEADER_SIZE, MAGIC, List.length_cons,
    List.length_nil, ge_iff_le, not_le] at *
  omega

/-- `export_resource` un `src/core.rs`: the requested id is compared via
`config.id.trim() == id.trim()`, so the query is trimmed once up front.
The decompressor (`decompress_file` in `src/util.rs`, an external gzip
collaborator) is a parameter. -/
def exportResource (file : List Nat) (id : List Char)
    (decompressFn : List Nat → Option (List Nat)) : ExportResult :=
  exportScan file (trim id) decompressFn 0

/-! ## `remove_resource` — excision -/

/-- The typed failures `remove_resource` can surface. -/
inductive RemoveErr where
  | notFound
  | lengthParse
  | beyondEof
  | endMarker
deriving DecidableEq, Repr

/-- The single-target search loop of `remove_resource` over the in-memory
container: sentinel match, header decode, trimmed-id comparison, length
parse, extent bounds check and end-sentinel check; on success returns the
matched entry's byte range `[start, end)` (end includes the end sentinel).
Note: no version validation is performed here. -/
def removeSearch (fileData : List Nat) (trimmedId : List Char) (searchPos : Nat) :
    Except RemoveErr (Nat × Nat) :=
  match hf : findMagicIn (fileData.drop searchPos) with
  | Option.none => .error .notFound
  | some relativePos =>
    let absolutePos := searchPos + relativePos
    let config? :=
      if absolutePos + MAGIC.length + MAX_HEADER_SIZE ≤ fileData.length then
        decodeHead (fileData.drop (absolutePos + MAGIC.length))
      else if fileData.length - absolutePos - MAGIC.length = 0 then Option.none
      else decodeHead (fileData.drop (absolutePos + MAGIC.length))
    match config? with
    | Option.none => removeSearch fileData trimmedId (absolutePos + 1)
    | some config =>
      if trim config.id = trimmedId then
        match parseNat (trim config.length) with
        | Option.none => .error .lengthParse
        | some resourceLength =>
          let endPos := absolutePos + MAGIC.length + headLen config + resourceLength
          if endPos + ENDID.length > fileData.length then .error .beyondEof
          else if (fileData.drop endPos).take ENDID.length ≠ ENDID then .error .endMarker
          else .ok (absolutePos, endPos + ENDID.length)
      else removeSearch fileData trimmedId (absolutePos + 1)
termination_by fileData.length + 1 - searchPos
decreasing_by
  all_goals
    have hb := findMagicInBound _ _ hf
    rw [List.length_drop] at hb
    omega

/-- `remove_resource` in `src/core.rs`: load the container, run the
single-target search, and write the container minus the matched range
`[start, end)` (path plumbing for the optional output file is outside the
byte-level model; the written bytes are the same either way). -/
def removeResource (fileData : List Nat) (id : List Char) : Except RemoveErr (List Nat) :=
  match removeSearch fileData (trim id) 0 with
  | .error e => .error e
  | .ok (start, endPos) => .ok (fileData.take start ++ fileData.drop endPos)

/-! ## `main.rs` list filter -/

/-- The `List` subcommand's id filter in `src/main.rs`: keep the headers
whose trimmed stored id equals the trimmed query id. -/
def listFilter (configs : List ResourceHead) (filterId : Option (List Char)) :
    List ResourceHead :=
  match filterId with
  | some fid => configs.filter (fun c => trim c.id = trim fid)
  | Option.none => configs

/-! ## `add_resource` — append, with explicit filesystem state

`add_resource` manipulates several files (source, fixed-name compression
intermediate, target or its copy), so it is modelled over a filesystem
state: a map from absolute paths (component lists) to file contents.
Relative-path resolution only selects which absolute path is meant and is
outside the model. -/

/-- An absolute filesystem path as a list of components. -/
abbrev Path := List (List Char)

/-- Filesystem state: contents of each existing file. -/
def FileSystem : Type := Path → Option (List Nat)

/-- `File::create` semantics: create or truncate-and-overwrite. -/
def FileSystem.write (fs : FileSystem) (p : Path) (content : List Nat) : FileSystem :=
  fun q => if q = p then some content else fs q

/-- `fs::remove_file` semantics. -/
def FileSystem.erase (fs : FileSystem) (p : Path) : FileSystem :=
  fun q => if q = p then Option.none else fs q

/-- Outcome of a Rust function returning `anyhow::Result` that can also
fail an `assert!`: a typed error is returned to the caller, a panic is not. -/
inductive RunResult (α : Type) where
  | panic : RunResult α
  | error : RunResult α
  | ok : α → RunResult α

def RunResult.isOk {α : Type} : RunResult α → Bool
  | .ok _ => true
  | _ => false

def RunResult.getD {α : Type} (r : RunResult α) (d : α) : α :=
  match r with
  | .ok a => a
  | _ => d

/-- The streamed copy loop of `add_resource` (`src/core.rs` lines 236-242):
read up to `BUFFER_SIZE` bytes and append them to the target until a short
read. -/
def copyLoop (src : List Nat) : List Nat :=
  if src.length < BUFFER_SIZE then src
  else src.take BUFFER_SIZE ++ copyLoop (src.drop BUFFER_SIZE)
termination_by src.length
decreasing_by
  rw [List.length_drop]
  simp only [BUFFER_SIZE] at *
  omega

/-- The payload actually stored by `add_resource`: the compressor output
when a compression grade was requested, the raw source bytes otherwise. -/
def storedPayload (grade : Option Nat) (compressFn : Nat → List Nat → List Nat)
    (sourceBytes : List Nat) : List Nat :=
  match grade with
  | some g => compressFn g sourceBytes
  | Option.none => sourceBytes

/-- `add_resource` (`src/core.rs` lines 162-254) over a filesystem state:

1. open the source file;
2. take its final component as the stored resource name;
3. if a compression grade is given, stream the source through the
   compressor into the fixed-name file `temp` in the source's directory
   (`File::create` overwrites any existing file there) and use that file as
   the payload source;
4. if an output path is given, copy the target there and append to the
   copy, else append to the target in place;
5. build the header (`ResourceHead::new` — may panic) and append
   sentinel, header, streamed payload, end sentinel;
6. unconditionally remove `temp` if a file with that name exists.

The compressor (`compression_file` in `src/util.rs`, an external gzip
collaborator) is a parameter. -/
def addAppendStep (fs2 : FileSystem) (writePath tempFilePath : Path)
    (id sourceName : List Char) (payload : List Nat) (cmode : CompressMode) :
    RunResult FileSystem :=
  -- OpenOptions::new().append(true).open(..)? — fails if the file is missing
  match fs2 writePath with
  | Option.none => .error
  | some targetBytes =>
    match resourceHeadNew id payload.length payload.length sourceName cmode with
    | .panic => .panic
    | .ok head =>
      -- write_all(MAGIC); write_all(&head); the streamed copy loop;
      -- write_all(&END_IDENTIFIER); flush
      let fs3 := FileSystem.write fs2 writePath
        (targetBytes ++ MAGIC ++ encodeHead head ++ copyLoop payload ++ ENDID)
      -- if temp_file_path.exists() { fs::remove_file(temp_file_path)? }
      let fs4 := if (fs3 tempFilePath).isSome then FileSystem.erase fs3 tempFilePath
        else fs3
      .ok fs4

def addResourceFS (fs : FileSystem) (targetFilePath sourceFilePath : Path)
    (id : List Char) (compressionGrade : Option Nat) (outputPath : Option Path)
    (compressFn : Nat → List Nat → List Nat) : RunResult FileSystem :=
  match fs sourceFilePath with
  | Option.none => .error
  | some sourceBytes =>
    match sourceFilePath.getLast? with
    | Option.none => .error
    | some sourceName =>
      let tempFilePath := sourceFilePath.dropLast ++ ["temp".data]
      -- compression_file writes `temp`, which is then reopened as the
      -- payload source; its contents at that point are the compressor output
      let fs1 := match compressionGrade with
        | some g => FileSystem.write fs tempFilePath (compressFn g sourceBytes)
        | Option.none => fs
      let payload := match compressionGrade with
        | some g => compressFn g sourceBytes
        | Option.none => sourceBytes
      let resolved : Option (Path × FileSystem) := match outputPath with
        | some op =>
          (match fs1 targetFilePath with
           | some t => some (op, FileSystem.write fs1 op t)
           | Option.none => Option.none)
        | Option.none => some (targetFilePath, fs1)
      match resolved with
      | Option.none => .error
      | some (writePath, fs2) =>
        let cmode := if compressionGrade.isSome then CompressMode.compress
          else CompressMode.none
        addAppendStep fs2 writePath tempFilePath id sourceName payload cmode

/-- The compressed-resource handling step of `export_resource`
(`src/core.rs` lines 400-408) over a filesystem state: decompress the
written output into the fixed-name sibling `actualFile`, delete the
compressed output, and rename the decompressed file into place. -/
def exportDecompressStep (fs : FileSystem) (outputPathBuf : Path)
    (decompressFn : List Nat → Option (List Nat)) : Option FileSystem :=
  match outputPathBuf with
  | [] => Option.none
  | _ :: _ =>
    let actualFile := outputPathBuf.dropLast ++ ["actualFile".data]
    match fs outputPathBuf with
    | Option.none => Option.none
    | some compressedBytes =>
      match decompressFn compressedBytes with
      | Option.none => Option.none
      | some decompressedBytes =>
        let fs1 := FileSystem.write fs actualFile decompressedBytes
        let fs2 := FileSystem.erase fs1 outputPathBuf
        match fs2 actualFile with
        | Option.none => Option.none
        | some moved =>
          some (FileSystem.write (FileSystem.erase fs2 actualFile) outputPathBuf moved)

/-! ## Codec and sentinel-search lemmas -/

theorem char_valid (c : Char) : c.toNat < 55296 ∨ (57343 < c.toNat ∧ c.toNat < 1114112) := by
  rcases c.valid with h | h
  · left; exact h
  · right; exact h

theorem utf8Char_length_pos (c : Char) : 0 < (utf8Char c).length := by
  unfold utf8Char
  dsimp only
  split_ifs <;> simp

theorem utf8Char_length_le (c : Char) : (utf8Char c).length ≤ 4 := by
  unfold utf8Char
  dsimp only
  split_ifs <;> simp

theorem utf8DecodeChar_encode (c : Char) (rest : List Nat) :
    utf8DecodeChar (utf8Char c ++ rest) = some (c, rest) := by
  have hv := char_valid c
  have hofn : Char.ofNat c.toNat = c := Char.ofNat_toNat c
  unfold utf8Char
  by_cases h1 : c.toNat < 128
  · simp only [h1, if_true]
    simp [utf8DecodeChar, h1, hofn]
  · by_cases h2 : c.toNat < 2048
    · simp only [h1, if_false, h2, if_true]
      have hb0 : ¬(192 + c.toNat / 64 < 128) := by omega
      have hb0' : ¬(192 + c.toNat / 64 < 194) := by omega
      have hb0'' : 192 + c.toNat / 64 < 224 := by omega
      have hb1 : 128 ≤ 128 + c.toNat % 64 ∧ 128 + c.toNat % 64 < 192 := by omega
      simp only [List.cons_append, utf8DecodeChar, hb0, hb0', hb0'', if_false, if_true, hb1,
        and_true, true_and]
      have hx : c.toNat / 64 * 64 + c.toNat % 64 = c.toNat := by omega
      simp only [Nat.add_sub_cancel_left, hx, hofn, List.nil_append]
    · by_cases h3 : c.toNat < 65536
      · simp only [h1, h2, if_false, h3, if_true]
        have hb0 : ¬(224 + c.toNat / 4096 < 128) := by omega
        have hb0' : ¬(224 + c.toNat / 4096 < 194) := by omega
        have hb0'' : ¬(224 + c.toNat / 4096 < 224) := by omega
        have hb0''' : 224 + c.toNat / 4096 < 240 := by omega
        have hb1 : 128 ≤ 128 + c.toNat / 64 % 64 ∧ 128 + c.toNat / 64 % 64 < 192 := by omega
        have hb2 : 128 ≤ 128 + c.toNat % 64 ∧ 128 + c.toNat % 64 < 192 := by omega
        have hrec : (224 + c.toNat / 4096 - 224) * 4096 + (128 + c.toNat / 64 % 64 - 128) * 64 +
            (128 + c.toNat % 64 - 128) = c.toNat := by omega
        have hval : 2048 ≤ c.toNat ∧ ¬(55296 ≤ c.toNat ∧ c.toNat ≤ 57343) := by omega
        simp only [List.cons_append, utf8DecodeChar, hb0, hb0', hb0'', hb0''', if_false, if_true,
          hb1, hb2, and_true, true_and, hrec, hval, hofn]
        simp [hval.1, hval.2, hofn, hrec]
      · simp only [h1, h2, h3, if_false]
        have hn : c.toNat < 1114112 := by omega
        have hb0 : ¬(240 + c.toNat / 262144 < 128) := by omega
        have hb0' : ¬(240 + c.toNat / 262144 < 194) := by omega
        have hb0'' : ¬(240 + c.toNat / 262144 < 224) := by omega
        have hb0''' : ¬(240 + c.toNat / 262144 < 240) := by omega
        have hb0'''' : 240 + c.toNat / 262144 < 245 := by omega
        have hb1 : 128 ≤ 128 + c.toNat / 4096 % 64 ∧ 128 + c.toNat / 4096 % 64 < 192 := by omega
        have hb2 : 128 ≤ 128 + c.toNat / 64 % 64 ∧ 128 + c.toNat / 64 % 64 < 192 := by omega
        have hb3 : 128 ≤ 128 + c.toNat % 64 ∧ 128 + c.toNat % 64 < 192 := by omega
        have hrec : (240 + c.toNat / 262144 - 240) * 262144 +
            (128 + c.toNat / 4096 % 64 - 128) * 4096 +
            (128 + c.toNat / 64 % 64 - 128) * 64 + (128 + c.toNat % 64 - 128) = c.toNat := by omega
        have hval : 65536 ≤ c.toNat ∧ c.toNat < 1114112 := by omega
        simp only [List.cons_append, utf8DecodeChar, hb0, hb0', hb0'', hb0''', hb0'''', if_false,
          if_true, hb1, hb2, hb3, and_true, true_and, hrec, hval, hofn]
        simp [hval.1, hval.2, hofn, hrec]

theorem utf8DecodeAux_encode (s : List Char) (fuel : Nat)
    (hfuel : (utf8Encode s).length ≤ fuel) :
    utf8DecodeAux fuel (utf8Encode s) = some s := by
  induction s generalizing fuel with
  | nil => cases fuel <;> simp [utf8Encode, utf8DecodeAux]
  | cons c s ih =>
    have henc : utf8Encode (c :: s) = utf8Char c ++ utf8Encode s := by
      simp [utf8Encode]
    rw [henc] at hfuel ⊢
    have hpos := utf8Char_length_pos c
    obtain ⟨b, tl, hbtl⟩ : ∃ b tl, utf8Char c ++ utf8Encode s = b :: tl := by
      cases hc : utf8Char c with
      | nil => rw [hc] at hpos; simp at hpos
      | cons b tl => exact ⟨b, tl ++ utf8Encode s, by simp [hc]⟩
    obtain ⟨fuel', rfl⟩ : ∃ fuel', fuel = fuel' + 1 := by
      rcases fuel with _ | f
      · rw [List.length_append] at hfuel; omega
      · exact ⟨f, rfl⟩
    rw [hbtl]
    rw [show utf8DecodeAux (fuel' + 1) (b :: tl) =
        match utf8DecodeChar (b :: tl) with
        | none => none
        | some (c, rest1) => (utf8DecodeAux fuel' rest1).map (c :: ·) from rfl]
    rw [← hbtl, utf8DecodeChar_encode]
    have : utf8DecodeAux fuel' (utf8Encode s) = some s := by
      apply ih
      rw [List.length_append] at hfuel
      omega
    simp [this]

theorem utf8Decode_encode (s : List Char) : utf8Decode (utf8Encode s) = some s :=
  utf8DecodeAux_encode s _ le_rfl

theorem utf8Encode_length_le (s : List Char) : (utf8Encode s).length ≤ 4 * s.length := by
  induction s with
  | nil => simp [utf8Encode]
  | cons c t ih =>
    have h1 : utf8Encode (c :: t) = utf8Char c ++ utf8Encode t := by simp [utf8Encode]
    have h2 := utf8Char_length_le c
    rw [h1, List.length_append, List.length_cons]
    omega

theorem readLe64_le64 (n : Nat) (h : n < 18446744073709551616) (rest : List Nat) :
    readLe64 (le64 n ++ rest) = some (n, rest) := by
  simp only [le64, List.cons_append, List.nil_append, readLe64]
  congr 2
  omega

/-- Little-endian `u32` encoding (4 bytes), used for bincode enum tags. -/

theorem readLe32_le32 (n : Nat) (h : n < 4294967296) (rest : List Nat) :
    readLe32 (le32 n ++ rest) = some (n, rest) := by
  simp only [le32, List.cons_append, List.nil_append, readLe32]
  congr 2
  omega

theorem readStr_encodeStr (s : List Char) (rest : List Nat)
    (h : (utf8Encode s).length < 18446744073709551616) :
    readStr (encodeStr s ++ rest) = some (s, rest) := by
  have hle : (utf8Encode s).length ≤ (utf8Encode s ++ rest).length := by
    rw [List.length_append]; omega
  rw [encodeStr, List.append_assoc, readStr, readLe64_le64 _ h]
  simp only [hle, if_true, List.take_left, List.drop_left, utf8Decode_encode]

theorem decodeHead_encodeHead (h : ResourceHead) (rest : List Nat)
    (hv : (utf8Encode h.version).length < 18446744073709551616)
    (hi : (utf8Encode h.id).length < 18446744073709551616)
    (hn : (utf8Encode h.name).length < 18446744073709551616)
    (hl : (utf8Encode h.length).length < 18446744073709551616)
    (hs : (utf8Encode h.size).length < 18446744073709551616) :
    decodeHead (encodeHead h ++ rest) = some h := by
  have htag : h.compress.tag < 4294967296 := by
    cases h.compress <;> simp [CompressMode.tag]
  simp only [encodeHead, decodeHead, List.append_assoc, readStr_encodeStr _ _ hv,
    readStr_encodeStr _ _ hi, readStr_encodeStr _ _ hn, readStr_encodeStr _ _ hl,
    readStr_encodeStr _ _ hs, readLe32_le32 _ htag]
  cases hc : h.compress
  · simp [CompressMode.tag, ← hc]
  · simp [CompressMode.tag, ← hc]

theorem findMagicIn_some_bound (l : List Nat) (r : Nat) (h : findMagicIn l = some r) :
    r + 16 ≤ l.length :=
  findMagicInBound l r h

theorem findMagicIn_short (l : List Nat) (h : l.length < 16) : findMagicIn l = Option.none := by
  cases hf : findMagicIn l with
  | none => rfl
  | some r =>
    have := findMagicIn_some_bound l r hf
    omega

theorem magic_not_prefix_zero (rest : List Nat) : MAGIC.isPrefixOf (0 :: rest) = false := by
  rw [MAGIC]
  simp [List.isPrefixOf]

theorem findMagicIn_replicate_zero (n : Nat) (l : List Nat) :
    findMagicIn (List.replicate n 0 ++ l) = (findMagicIn l).map (n + ·) := by
  induction n with
  | zero =>
    simp only [List.replicate, List.nil_append]
    cases findMagicIn l <;> simp
  | succ k ih =>
    rw [List.replicate_succ, List.cons_append, findMagicIn, magic_not_prefix_zero]
    simp only [Bool.false_eq_true, if_false, ih]
    cases findMagicIn l <;> simp <;> omega

theorem findMagicIn_magic_prefix (l : List Nat) : findMagicIn (MAGIC ++ l) = some 0 := by
  have : MAGIC.isPrefixOf (MAGIC ++ l) = true := by
    rw [List.isPrefixOf_iff_prefix]
    exact ⟨l, rfl⟩
  rw [show MAGIC ++ l = 0x89 :: ([0x4F, 0x76, 0x65, 0x72, 0x6C, 0x61, 0x79, 0x44, 0x61, 0x74,
    0x61, 0x0d, 0x0a, 0x1a, 0x0a] ++ l) from rfl, findMagicIn]
  rw [show (0x89 :: ([0x4F, 0x76, 0x65, 0x72, 0x6C, 0x61, 0x79, 0x44, 0x61, 0x74,
    0x61, 0x0d, 0x0a, 0x1a, 0x0a] ++ l)) = MAGIC ++ l from rfl, this]
  simp

theorem copyLoop_eq (src : List Nat) : copyLoop src = src := by
  rw [copyLoop]
  split
  · rfl
  · rw [copyLoop_eq (src.drop BUFFER_SIZE), List.take_append_drop]
termination_by src.length
decreasing_by
  rw [List.length_drop]
  simp only [BUFFER_SIZE] at *
  omega

/-! ## Generic bounds used by the round-trip arguments -/

theorem padZeroes_length (w : Nat) (s : List Char) :
    (padZeroes w s).length = (w - s.length) + s.length := by
  simp [padZeroes]

/-- The padded decimal `length`/`size` field of any `u64` value is far below
the `u64` byte-length bound required by the codec round-trip. -/
theorem sizeField_bytes_lt (n : Nat) (h : n < 18446744073709551616) :
    (utf8Encode (padZeroes lengthFieldWidth (natRepr n))).length < 18446744073709551616 := by
  have hrepr : (Nat.repr n).length ≤ 20 :=
    Nat.repr_length n 20 (by omega) (by omega)
  have hchars : (padZeroes lengthFieldWidth (natRepr n)).length ≤ 33 := by
    rw [padZeroes_length]
    have : (natRepr n).length = (Nat.repr n).length := rfl
    have hw : lengthFieldWidth ≤ 13 := by decide
    omega
  have := utf8Encode_length_le (padZeroes lengthFieldWidth (natRepr n))
  omega

/-! ## Filesystem bookkeeping lemmas -/

theorem FileSystem.write_self (fs : FileSystem) (p : Path) (c : List Nat) :
    FileSystem.write fs p c p = some c := by
  simp [FileSystem.write]

theorem FileSystem.write_ne (fs : FileSystem) (p : Path) (c : List Nat) (q : Path)
    (h : q ≠ p) : FileSystem.write fs p c q = fs q := by
  simp [FileSystem.write, h]

theorem FileSystem.erase_self (fs : FileSystem) (p : Path) :
    FileSystem.erase fs p p = Option.none := by
  simp [FileSystem.erase]

theorem FileSystem.erase_ne (fs : FileSystem) (p : Path) (q : Path)
    (h : q ≠ p) : FileSystem.erase fs p q = fs q := by
  simp [FileSystem.erase, h]

theorem resourceHeadNew_ok_elim {id : List Char} {length size : Nat} {name : List Char}
    {cmode : CompressMode} {hd : ResourceHead}
    (h : resourceHeadNew id length size name cmode = .ok hd) :
    hd = resourceHeadMk id length size name cmode ∧
      id.length ≤ MAX_ID_LENGTH ∧ name.length ≤ MAX_NAME_LENGTH := by
  rw [resourceHeadNew] at h
  split_ifs at h with h1 h2
  · cases h
    exact ⟨rfl, h1, h2⟩

/-- Unfolded success behaviour of the write stage of `add_resource`: a
successful run leaves the write path holding the original target bytes
followed by sentinel, encoded header, stored payload and end sentinel, and
leaves no file at the `temp` path; the header assertions must have passed. -/
theorem addAppendStep_ok_spec (fs2 : FileSystem) (wp temp : Path) (id nm : List Char)
    (payload : List Nat) (cmode : CompressMode) (t0 : List Nat) (d : FileSystem)
    (hwp : fs2 wp = some t0) (hne : wp ≠ temp)
    (hok : (addAppendStep fs2 wp temp id nm payload cmode).isOk = true) :
    ((addAppendStep fs2 wp temp id nm payload cmode).getD d) wp =
      some (t0 ++ MAGIC ++
        encodeHead (resourceHeadMk id payload.length payload.length nm cmode) ++
        payload ++ ENDID) ∧
    ((addAppendStep fs2 wp temp id nm payload cmode).getD d) temp = Option.none ∧
    id.length ≤ MAX_ID_LENGTH ∧ nm.length ≤ MAX_NAME_LENGTH := by
  rw [addAppendStep] at hok ⊢
  rw [hwp] at hok ⊢
  revert hok
  cases hrn : resourceHeadNew id payload.length payload.length nm cmode with
  | panic => intro hok; simp [RunResult.isOk] at hok
  | ok hd =>
    intro hok
    obtain ⟨rfl, hid, hnm⟩ := resourceHeadNew_ok_elim hrn
    dsimp only [RunResult.getD]
    rw [copyLoop_eq]
    refine ⟨?_, ?_, hid, hnm⟩
    · cases hex : (FileSystem.write fs2 wp
          (t0 ++ MAGIC ++ encodeHead (resourceHeadMk id payload.length payload.length nm cmode)
            ++ payload ++ ENDID) temp).isSome
      · simp only [hex, Bool.false_eq_true, if_false]
        rw [FileSystem.write_self]
      · simp only [hex, if_true]
        rw [FileSystem.erase_ne _ _ _ hne, FileSystem.write_self]
    · cases hex : (FileSystem.write fs2 wp
          (t0 ++ MAGIC ++ encodeHead (resourceHeadMk id payload.length payload.length nm cmode)
            ++ payload ++ ENDID) temp).isSome
      · simp only [hex, Bool.false_eq_true, if_false]
        rw [← Option.not_isSome_iff_eq_none, hex]
        simp
      · simp only [hex, if_true]
        rw [FileSystem.erase_self]

/-- Whatever the aliasing, a successful write stage leaves nothing at the
`temp` path (the cleanup is unconditional). -/
theorem addAppendStep_temp_gone (fs2 : FileSystem) (wp temp : Path) (id nm : List Char)
    (payload : List Nat) (cmode : CompressMode) (d : FileSystem)
    (hok : (addAppendStep fs2 wp temp id nm payload cmode).isOk = true) :
    ((addAppendStep fs2 wp temp id nm payload cmode).getD d) temp = Option.none := by
  rw [addAppendStep] at hok ⊢
  revert hok
  cases hw : fs2 wp with
  | none => intro hok; simp [RunResult.isOk] at hok
  | some t0 =>
    cases hrn : resourceHeadNew id payload.length payload.length nm cmode with
    | panic => intro hok; simp [RunResult.isOk] at hok
    | ok hd =>
      intro hok
      dsimp only [RunResult.getD]
      cases hex : (FileSystem.write fs2 wp
          (t0 ++ MAGIC ++ encodeHead hd ++ copyLoop payload ++ ENDID) temp).isSome
      · simp only [hex, Bool.false_eq_true, if_false]
        rw [← Option.not_isSome_iff_eq_none, hex]
        simp
      · simp only [hex, if_true]
        rw [FileSystem.erase_self]

/-- Unfolded success behaviour of `addResourceFS`, the workhorse behind the
append claims: under non-aliasing of the fixed-name `temp` intermediate with
the target and write paths, a successful run leaves the write path holding
the original target bytes followed by sentinel, encoded header, stored
payload (the compressor output when a grade was given) and end sentinel, and
leaves no file at the `temp` path. -/
theorem addResourceFS_ok_spec
    (fs : FileSystem) (target source : Path) (id : List Char) (grade : Option Nat)
    (out : Option Path) (compressFn : Nat → List Nat → List Nat)
    (sourceBytes t0 : List Nat) (sourceName : List Char)
    (hsrc : fs source = some sourceBytes)
    (hname : source.getLast? = some sourceName)
    (htgt : fs target = some t0)
    (htempt : target ≠ source.dropLast ++ ["temp".data])
    (htempw : (out.getD target) ≠ source.dropLast ++ ["temp".data])
    (hok : (addResourceFS fs target source id grade out compressFn).isOk = true) :
    ((addResourceFS fs target source id grade out compressFn).getD fs) (out.getD target) =
      some (t0 ++ MAGIC ++
        encodeHead (resourceHeadMk id
          (storedPayload grade compressFn sourceBytes).length
          (storedPayload grade compressFn sourceBytes).length
          sourceName
          (if grade.isSome then CompressMode.compress else CompressMode.none)) ++
        storedPayload grade compressFn sourceBytes ++ ENDID) ∧
    ((addResourceFS fs target source id grade out compressFn).getD fs)
      (source.dropLast ++ ["temp".data]) = Option.none ∧
    id.length ≤ MAX_ID_LENGTH ∧ sourceName.length ≤ MAX_NAME_LENGTH := by
  rw [addResourceFS] at hok ⊢
  rw [hsrc, hname] at hok ⊢
  dsimp only at hok ⊢
  cases grade with
  | none =>
    cases out with
    | none =>
      dsimp only [Option.getD] at htempw hok ⊢
      exact addAppendStep_ok_spec fs target _ id sourceName sourceBytes CompressMode.none
        t0 fs htgt htempw hok
    | some op =>
      dsimp only [Option.getD] at htempw hok ⊢
      rw [htgt] at hok ⊢
      dsimp only at hok ⊢
      exact addAppendStep_ok_spec _ op _ id sourceName sourceBytes CompressMode.none
        t0 fs (FileSystem.write_self _ _ _) htempw hok
  | some g =>
    cases out with
    | none =>
      dsimp only [Option.getD] at htempw hok ⊢
      exact addAppendStep_ok_spec _ target _ id sourceName _ CompressMode.compress
        t0 fs (by rw [FileSystem.write_ne _ _ _ _ htempt]; exact htgt) htempw hok
    | some op =>
      dsimp only [Option.getD] at htempw hok ⊢
      rw [FileSystem.write_ne _ _ _ _ htempt, htgt] at hok ⊢
      dsimp only at hok ⊢
      exact addAppendStep_ok_spec _ op _ id sourceName _ CompressMode.compress
        t0 fs (FileSystem.write_self _ _ _) htempw hok

/-- A successful `add_resource` leaves no file named `temp` in the source's
directory, whether or not compression was requested and whatever was there
before. -/
theorem addResourceFS_temp_gone
    (fs : FileSystem) (target source : Path) (id : List Char) (grade : Option Nat)
    (out : Option Path) (compressFn : Nat → List Nat → List Nat)
    (hok : (addResourceFS fs target source id grade out compressFn).isOk = true) :
    ((addResourceFS fs target source id grade out compressFn).getD fs)
      (source.dropLast ++ ["temp".data]) = Option.none := by
  rw [addResourceFS] at hok ⊢
  revert hok
  cases hs : fs source with
  | none => intro hok; simp [RunResult.isOk] at hok
  | some sourceBytes =>
    cases hn : source.getLast? with
    | none => intro hok; simp [RunResult.isOk] at hok
    | some sourceName =>
      dsimp only
      cases grade with
      | none =>
        cases out with
        | none => exact fun hok => addAppendStep_temp_gone _ _ _ _ _ _ _ _ hok
        | some op =>
          dsimp only
          cases ht : fs target with
          | none => intro hok; simp [RunResult.isOk] at hok
          | some t0 => exact fun hok => addAppendStep_temp_gone _ _ _ _ _ _ _ _ hok
      | some g =>
        cases out with
        | none => exact fun hok => addAppendStep_temp_gone _ _ _ _ _ _ _ _ hok
        | some op =>
          dsimp only
          cases ht : FileSystem.write fs (source.dropLast ++ ["temp".data])
              (compressFn g sourceBytes) target with
          | none => intro hok; simp [RunResult.isOk] at hok
          | some t0 => exact fun hok => addAppendStep_temp_gone _ _ _ _ _ _ _ _ hok

/-! ## Claim C2 — id/name length validation -/

/-- **C2** (corrected).  `ResourceHead::new` does enforce the 64-scalar id
limit and the 255-scalar name limit, but a violation is a process-fatal
`assert!` panic, not a recoverable checked error returned to the caller:
construction panics exactly when a limit is exceeded, and there is no error
channel in its return type. -/
theorem c2_new_panics_iff_limits_exceeded (id : List Char) (length size : Nat)
    (name : List Char) (cmode : CompressMode) :
    (resourceHeadNew id length size name cmode).isPanic = true ↔
      (MAX_ID_LENGTH < id.length ∨ MAX_NAME_LENGTH < name.length) := by
  rw [resourceHeadNew]
  split_ifs with h1 h2 <;> simp [PanicOr.isPanic] <;> omega

/-- **C2** counterexample to the claim as stated: a 65-scalar id (and,
separately, a 256-scalar name) makes `ResourceHead::new` panic — the
construction aborts instead of returning a recoverable validation error. -/
theorem c2_counterexample :
    resourceHeadNew (List.replicate 65 'a') 0 0 [] CompressMode.none = PanicOr.panic ∧
    resourceHeadNew ['a'] 0 0 (List.replicate 256 'b') CompressMode.none = PanicOr.panic := by
  constructor
  · rfl
  · rfl

/-- **C2** witness: at concrete inputs, an over-long id panics and an
in-limits pair does not. -/
theorem c2_witness :
    (resourceHeadNew (List.replicate 65 'a') 0 0 [] CompressMode.none).isPanic = true ∧
    (resourceHeadNew "test001".data 27 27 "resource.bin".data CompressMode.none).isPanic
      = false := by
  constructor
  · exact (c2_new_panics_iff_limits_exceeded _ _ _ _ _).mpr (Or.inl (by decide))
  · have h := c2_new_panics_iff_limits_exceeded "test001".data 27 27 "resource.bin".data
      CompressMode.none
    rcases hb : (resourceHeadNew "test001".data 27 27 "resource.bin".data
      CompressMode.none).isPanic with _ | _
    · rfl
    · rw [hb] at h
      have := h.mp rfl
      revert this
      decide

/-! ## Claim C3 — size/length field population -/

/-- **C3** (confirmed).  On every successful `add_resource`, the header
written to the container — read back by decoding the bytes right after the
start sentinel — has its `length` field equal to the zero-padded decimal
byte count of the payload *as stored* (the compressor output when a
compression grade was requested), and its `size` field equal to the
`length` field.  The pre-compression source size appears nowhere. -/
theorem c3_size_equals_length_post_compression
    (fs : FileSystem) (target source : Path) (id : List Char) (grade : Option Nat)
    (out : Option Path) (compressFn : Nat → List Nat → List Nat)
    (sourceBytes t0 : List Nat) (sourceName : List Char)
    (hsrc : fs source = some sourceBytes)
    (hname : source.getLast? = some sourceName)
    (htgt : fs target = some t0)
    (htempt : target ≠ source.dropLast ++ ["temp".data])
    (htempw : (out.getD target) ≠ source.dropLast ++ ["temp".data])
    (hok : (addResourceFS fs target source id grade out compressFn).isOk = true)
    (hu64 : (storedPayload grade compressFn sourceBytes).length < 18446744073709551616) :
    ∃ container hd,
      ((addResourceFS fs target source id grade out compressFn).getD fs) (out.getD target)
        = some container ∧
      decodeHead (container.drop (t0.length + MAGIC.length)) = some hd ∧
      hd.length = padZeroes lengthFieldWidth
        (natRepr (storedPayload grade compressFn sourceBytes).length) ∧
      hd.size = hd.length := by
  obtain ⟨hcont, -, hid, hnm⟩ := addResourceFS_ok_spec fs target source id grade out compressFn
    sourceBytes t0 sourceName hsrc hname htgt htempt htempw hok
  refine ⟨_, resourceHeadMk id
    (storedPayload grade compressFn sourceBytes).length
    (storedPayload grade compressFn sourceBytes).length
    sourceName (if grade.isSome then CompressMode.compress else CompressMode.none),
    hcont, ?_, rfl, rfl⟩
  have hshape : t0 ++ MAGIC ++
      encodeHead (resourceHeadMk id
        (storedPayload grade compressFn sourceBytes).length
        (storedPayload grade compressFn sourceBytes).length
        sourceName (if grade.isSome then CompressMode.compress else CompressMode.none)) ++
      storedPayload grade compressFn sourceBytes ++ ENDID =
      (t0 ++ MAGIC) ++
        (encodeHead (resourceHeadMk id
          (storedPayload grade compressFn sourceBytes).length
          (storedPayload grade compressFn sourceBytes).length
          sourceName (if grade.isSome then CompressMode.compress else CompressMode.none)) ++
        (storedPayload grade compressFn sourceBytes ++ ENDID)) := by
    simp [List.append_assoc]
  rw [hshape]
  rw [show t0.length + MAGIC.length = (t0 ++ MAGIC).length from (List.length_append _ _).symm]
  rw [List.drop_left]
  refine decodeHead_encodeHead _ _ ?_ ?_ ?_ ?_ ?_
  · show (utf8Encode ("1.0.0".data)).length < 18446744073709551616
    decide
  · show (utf8Encode id).length < 18446744073709551616
    have := utf8Encode_length_le id
    rw [MAX_ID_LENGTH] at hid
    omega
  · show (utf8Encode sourceName).length < 18446744073709551616
    have := utf8Encode_length_le sourceName
    rw [MAX_NAME_LENGTH] at hnm
    omega
  · show (utf8Encode (padZeroes lengthFieldWidth
      (natRepr (storedPayload grade compressFn sourceBytes).length))).length
      < 18446744073709551616
    exact sizeField_bytes_lt _ hu64
  · show (utf8Encode (padZeroes lengthFieldWidth
      (natRepr (storedPayload grade compressFn sourceBytes).length))).length
      < 18446744073709551616
    exact sizeField_bytes_lt _ hu64

/-- **C3** witness: a concrete compressed append (source `[1,2,3]`
compressed to `[9,9]` by the model compressor) whose stored header fields
both read `0000000000002`. -/
theorem c3_witness :
    ∃ container hd,
      ((addResourceFS
          (fun p => if p = [['s']] then some [1, 2, 3]
            else if p = [['t']] then some [7] else Option.none)
          [['t']] [['s']] ['x'] (some 5) Option.none (fun _ _ => [9, 9])).getD
        (fun p => if p = [['s']] then some [1, 2, 3]
            else if p = [['t']] then some [7] else Option.none)) [['t']] = some container ∧
      decodeHead (container.drop ([7].length + MAGIC.length)) = some hd ∧
      hd.length = padZeroes lengthFieldWidth (natRepr 2) ∧
      hd.size = hd.length := by
  have h := c3_size_equals_length_post_compression
    (fun p => if p = [['s']] then some [1, 2, 3]
      else if p = [['t']] then some [7] else Option.none)
    [['t']] [['s']] ['x'] (some 5) Option.none (fun _ _ => [9, 9])
    [1, 2, 3] [7] ['s'] (by decide) (by decide) (by decide) (by decide) (by decide)
    (by decide) (by decide)
  exact h

/-! ## Claim C6 — append-only entry layout -/

/-- **C6** (confirmed).  Every successful `add_resource` leaves the written
file (the target, or its designated output copy) equal to the original
target bytes followed by exactly: the 16-byte start sentinel, the encoded
header, the stored payload bytes, and the 5-byte end sentinel; in
particular the original bytes survive unchanged as a prefix. -/
theorem c6_append_preserves_and_orders
    (fs : FileSystem) (target source : Path) (id : List Char) (grade : Option Nat)
    (out : Option Path) (compressFn : Nat → List Nat → List Nat)
    (sourceBytes t0 : List Nat) (sourceName : List Char)
    (hsrc : fs source = some sourceBytes)
    (hname : source.getLast? = some sourceName)
    (htgt : fs target = some t0)
    (htempt : target ≠ source.dropLast ++ ["temp".data])
    (htempw : (out.getD target) ≠ source.dropLast ++ ["temp".data])
    (hok : (addResourceFS fs target source id grade out compressFn).isOk = true) :
    ∃ container,
      ((addResourceFS fs target source id grade out compressFn).getD fs) (out.getD target)
        = some container ∧
      container = t0 ++ MAGIC ++
        encodeHead (resourceHeadMk id
          (storedPayload grade compressFn sourceBytes).length
          (storedPayload grade compressFn sourceBytes).length
          sourceName
          (if grade.isSome then CompressMode.compress else CompressMode.none)) ++
        storedPayload grade compressFn sourceBytes ++ ENDID ∧
      container.take t0.length = t0 := by
  obtain ⟨hcont, -, -, -⟩ := addResourceFS_ok_spec fs target source id grade out compressFn
    sourceBytes t0 sourceName hsrc hname htgt htempt htempw hok
  refine ⟨_, hcont, rfl, ?_⟩
  rw [List.append_assoc t0, List.append_assoc, List.append_assoc, List.take_left]

/-- **C6** witness: a concrete uncompressed append onto host bytes `[7,8]`. -/
theorem c6_witness :
    ∃ container,
      ((addResourceFS
          (fun p => if p = [['s']] then some [1, 2, 3]
            else if p = [['t']] then some [7, 8] else Option.none)
          [['t']] [['s']] ['x'] Option.none Option.none (fun _ l => l)).getD
        (fun p => if p = [['s']] then some [1, 2, 3]
            else if p = [['t']] then some [7, 8] else Option.none)) [['t']] = some container ∧
      container = [7, 8] ++ MAGIC ++
        encodeHead (resourceHeadMk ['x'] 3 3 ['s'] CompressMode.none) ++
        [1, 2, 3] ++ ENDID ∧
      container.take 2 = [7, 8] := by
  have h := c6_append_preserves_and_orders
    (fun p => if p = [['s']] then some [1, 2, 3]
      else if p = [['t']] then some [7, 8] else Option.none)
    [['t']] [['s']] ['x'] Option.none Option.none (fun _ l => l)
    [1, 2, 3] [7, 8] ['s'] (by decide) (by decide) (by decide) (by decide) (by decide)
    (by decide)
  exact h

/-! ## Claim C10 — fixed-name intermediates `temp` and `actualFile` -/

theorem exportDecompressStep_spec (fs : FileSystem) (outputPathBuf : Path)
    (decompressFn : List Nat → Option (List Nat)) (compressedBytes decompressedBytes : List Nat)
    (hnonempty : outputPathBuf ≠ [])
    (hcur : fs outputPathBuf = some compressedBytes)
    (hdec : decompressFn compressedBytes = some decompressedBytes)
    (hne : outputPathBuf ≠ outputPathBuf.dropLast ++ ["actualFile".data]) :
    ∃ fsE, exportDecompressStep fs outputPathBuf decompressFn = some fsE ∧
      fsE outputPathBuf = some decompressedBytes ∧
      fsE (outputPathBuf.dropLast ++ ["actualFile".data]) = Option.none := by
  obtain ⟨a, l, rfl⟩ : ∃ a l, outputPathBuf = a :: l := by
    cases outputPathBuf with
    | nil => exact absurd rfl hnonempty
    | cons a l => exact ⟨a, l, rfl⟩
  rw [exportDecompressStep]
  rw [hcur]
  dsimp only
  rw [hdec]
  dsimp only
  rw [FileSystem.erase_ne _ _ _ (Ne.symm hne), FileSystem.write_self]
  refine ⟨_, rfl, ?_, ?_⟩
  · rw [FileSystem.write_self]
  · rw [FileSystem.write_ne _ _ _ _ (Ne.symm hne), FileSystem.erase_self]

/-- **C10** (confirmed).  (a) On every successful `add_resource` — with or
without compression, and whatever file was there before — no file named
`temp` remains in the source's directory when the call returns.  (b) With
compression requested, the appended payload is the compressor's output on
the source bytes regardless of any pre-existing `temp` file's contents: the
intermediate overwrites it.  (c) `export_resource`'s decompression step
writes the decompressed bytes to the fixed-name sibling `actualFile`,
renames it over the output path, and leaves nothing at the `actualFile`
path. -/
theorem c10_fixed_name_intermediates
    (fs : FileSystem) (target source : Path) (id : List Char) (grade : Option Nat)
    (out : Option Path) (compressFn : Nat → List Nat → List Nat)
    (g : Nat) (junk sourceBytes t0 : List Nat) (sourceName : List Char)
    (fsE : FileSystem) (outputPathBuf : Path)
    (decompressFn : List Nat → Option (List Nat)) (compressedBytes decompressedBytes : List Nat)
    (hok : (addResourceFS fs target source id grade out compressFn).isOk = true)
    (hsrc : fs source = some sourceBytes)
    (hname : source.getLast? = some sourceName)
    (htgt : fs target = some t0)
    (hsrcne : source ≠ source.dropLast ++ ["temp".data])
    (htempt : target ≠ source.dropLast ++ ["temp".data])
    (htempw : (out.getD target) ≠ source.dropLast ++ ["temp".data])
    (hokb : (addResourceFS (FileSystem.write fs (source.dropLast ++ ["temp".data]) junk)
      target source id (some g) out compressFn).isOk = true)
    (hnonempty : outputPathBuf ≠ [])
    (hcur : fsE outputPathBuf = some compressedBytes)
    (hdec : decompressFn compressedBytes = some decompressedBytes)
    (hne : outputPathBuf ≠ outputPathBuf.dropLast ++ ["actualFile".data]) :
    ((addResourceFS fs target source id grade out compressFn).getD fs)
      (source.dropLast ++ ["temp".data]) = Option.none ∧
    ((addResourceFS (FileSystem.write fs (source.dropLast ++ ["temp".data]) junk)
        target source id (some g) out compressFn).getD
      (FileSystem.write fs (source.dropLast ++ ["temp".data]) junk)) (out.getD target) =
      some (t0 ++ MAGIC ++
        encodeHead (resourceHeadMk id (compressFn g sourceBytes).length
          (compressFn g sourceBytes).length sourceName CompressMode.compress) ++
        compressFn g sourceBytes ++ ENDID) ∧
    (∃ fsE2, exportDecompressStep fsE outputPathBuf decompressFn = some fsE2 ∧
      fsE2 outputPathBuf = some decompressedBytes ∧
      fsE2 (outputPathBuf.dropLast ++ ["actualFile".data]) = Option.none) := by
  refine ⟨addResourceFS_temp_gone _ _ _ _ _ _ _ hok, ?_,
    exportDecompressStep_spec _ _ _ _ _ hnonempty hcur hdec hne⟩
  have hspec := addResourceFS_ok_spec
    (FileSystem.write fs (source.dropLast ++ ["temp".data]) junk) target source id (some g)
    out compressFn sourceBytes t0 sourceName
    (by rw [FileSystem.write_ne _ _ _ _ hsrcne]; exact hsrc) hname
    (by rw [FileSystem.write_ne _ _ _ _ htempt]; exact htgt) htempt htempw hokb
  have h1 := hspec.1
  simp only [storedPayload, Option.isSome_some, if_true] at h1
  exact h1

/-- **C10** witness: concrete run with a pre-existing `temp` file holding
`[5,5,5]`, plus a concrete decompression step. -/
theorem c10_witness :
    ((addResourceFS
        (fun p => if p = [['s']] then some [1, 2, 3]
          else if p = [['t']] then some [7] else Option.none)
        [['t']] [['s']] ['x'] (some 4) Option.none (fun _ _ => [9, 9])).getD
      (fun p => if p = [['s']] then some [1, 2, 3]
          else if p = [['t']] then some [7] else Option.none)) ["temp".data] = Option.none ∧
    ((addResourceFS
        (FileSystem.write
          (fun p => if p = [['s']] then some [1, 2, 3]
            else if p = [['t']] then some [7] else Option.none) ["temp".data] [5, 5, 5])
        [['t']] [['s']] ['x'] (some 4) Option.none (fun _ _ => [9, 9])).getD
      (FileSystem.write
          (fun p => if p = [['s']] then some [1, 2, 3]
            else if p = [['t']] then some [7] else Option.none) ["temp".data] [5, 5, 5])) [['t']] =
      some ([7] ++ MAGIC ++
        encodeHead (resourceHeadMk ['x'] 2 2 ['s'] CompressMode.compress) ++
        [9, 9] ++ ENDID) ∧
    (∃ fsE2, exportDecompressStep (fun p => if p = [['o']] then some [9, 9] else Option.none)
        [['o']] (fun _ => some [1, 2, 3, 4]) = some fsE2 ∧
      fsE2 [['o']] = some [1, 2, 3, 4] ∧
      fsE2 (["actualFile".data]) = Option.none) := by
  have h := c10_fixed_name_intermediates
    (fun p => if p = [['s']] then some [1, 2, 3]
      else if p = [['t']] then some [7] else Option.none)
    [['t']] [['s']] ['x'] (some 4) Option.none (fun _ _ => [9, 9])
    4 [5, 5, 5] [1, 2, 3] [7] ['s']
    (fun p => if p = [['o']] then some [9, 9] else Option.none) [['o']]
    (fun _ => some [1, 2, 3, 4]) [9, 9] [1, 2, 3, 4]
    (by decide) (by decide) (by decide) (by decide) (by decide) (by decide) (by decide)
    (by decide) (by decide) (by decide) (by decide) (by decide)
  exact h

/-! ## Sentinel-position and trim lemmas -/

theorem findMagicIn_some_prefix (l : List Nat) (r : Nat) (h : findMagicIn l = some r) :
    (l.drop r).take MAGIC.length = MAGIC := by
  induction l generalizing r with
  | nil => simp [findMagicIn] at h
  | cons b rest ih =>
    rw [findMagicIn] at h
    split at h
    · next hp =>
      cases h
      obtain ⟨t, ht⟩ := List.isPrefixOf_iff_prefix.mp hp
      rw [List.drop_zero, ← ht, List.take_left]
    · next hp =>
      rcases Option.map_eq_some'.mp h with ⟨r', hr', rfl⟩
      rw [List.drop_succ_cons]
      exact ih r' hr'

theorem drop_append_of_length (a l : List Nat) (n : Nat) (h : n = a.length) :
    (a ++ l).drop n = l := by
  subst h
  exact List.drop_left a l

theorem take_append_of_length (a l : List Nat) (n : Nat) (h : n = a.length) :
    (a ++ l).take n = a := by
  subst h
  exact List.take_left a l

theorem dropWhile_append_of_all (p : Char → Bool) (l1 l2 : List Char)
    (h : ∀ c ∈ l1, p c = true) : (l1 ++ l2).dropWhile p = l2.dropWhile p := by
  induction l1 with
  | nil => rfl
  | cons a t ih =>
    rw [List.cons_append, List.dropWhile_cons]
    rw [h a (by simp)]
    simp only [if_true]
    exact ih (fun c hc => h c (by simp [hc]))

theorem dropWhile_eq_nil_of_all (p : Char → Bool) (l : List Char)
    (h : ∀ c ∈ l, p c = true) : l.dropWhile p = [] := by
  have := dropWhile_append_of_all p l [] h
  simpa using this

theorem trimEnd_append_ws (x v : List Char) (hv : ∀ c ∈ v, isRustWhitespace c = true) :
    trimEnd (x ++ v) = trimEnd x := by
  rw [trimEnd, trimEnd, List.reverse_append]
  rw [dropWhile_append_of_all _ _ _ (fun c hc => hv c (List.mem_reverse.mp hc))]

/-- Rust `str::trim` ignores any whitespace wrapped around a string: the
basis of the id-matching behaviour of export/remove/list. -/
theorem trim_append_ws (u s v : List Char)
    (hu : ∀ c ∈ u, isRustWhitespace c = true)
    (hv : ∀ c ∈ v, isRustWhitespace c = true) :
    trim (u ++ s ++ v) = trim s := by
  rw [trim, List.append_assoc, trimStart,
    dropWhile_append_of_all _ _ _ hu, ← trimStart]
  rw [trim]
  rw [trimStart, trimStart, List.dropWhile_append]
  cases hemp : (s.dropWhile isRustWhitespace).isEmpty
  · simp only [hemp, Bool.false_eq_true, if_false]
    exact trimEnd_append_ws _ _ hv
  · simp only [hemp, if_true]
    rw [dropWhile_eq_nil_of_all _ _ hv]
    rw [List.isEmpty_iff] at hemp
    rw [hemp]

/-! ## Single-target search of `remove_resource`: validation inversion -/

/-- Whenever the search loop of `remove_resource` accepts an entry
`[s, e)`, all of its validations held: the start sentinel is at `s`, the
header decodes from the bytes after it, its trimmed id matches, its
`length` field parses, the computed extent (header length from re-encoding,
then payload, then end sentinel) lies within the file, and the end sentinel
bytes are present at the computed position.  No version validation appears
here — `remove_resource` has none. -/
theorem removeSearch_ok_spec (fileData : List Nat) (tq : List Char) (p s e : Nat)
    (h : removeSearch fileData tq p = .ok (s, e)) :
    ∃ config L,
      (fileData.drop s).take MAGIC.length = MAGIC ∧
      decodeHead (fileData.drop (s + MAGIC.length)) = some config ∧
      trim config.id = tq ∧
      parseNat (trim config.length) = some L ∧
      e = s + MAGIC.length + headLen config + L + ENDID.length ∧
      e ≤ fileData.length ∧
      (fileData.drop (s + MAGIC.length + headLen config + L)).take ENDID.length = ENDID := by
  cases hf : findMagicIn (fileData.drop p) with
  | none => rw [removeSearch, hf] at h; cases h
  | some rel =>
    rw [removeSearch, hf] at h
    dsimp only at h
    have hmag : (fileData.drop (p + rel)).take MAGIC.length = MAGIC := by
      have := findMagicIn_some_prefix _ _ hf
      rwa [List.drop_drop] at this
    have hrec : removeSearch fileData tq (p + rel + 1) = .ok (s, e) →
        ∃ config L,
          (fileData.drop s).take MAGIC.length = MAGIC ∧
          decodeHead (fileData.drop (s + MAGIC.length)) = some config ∧
          trim config.id = tq ∧
          parseNat (trim config.length) = some L ∧
          e = s + MAGIC.length + headLen config + L + ENDID.length ∧
          e ≤ fileData.length ∧
          (fileData.drop (s + MAGIC.length + headLen config + L)).take ENDID.length = ENDID :=
      removeSearch_ok_spec fileData tq (p + rel + 1) s e
    have hdecode : ∀ (config : ResourceHead),
        decodeHead (fileData.drop (p + rel + MAGIC.length)) = some config →
        (if trim config.id = tq then
            match parseNat (trim config.length) with
            | Option.none => Except.error RemoveErr.lengthParse
            | some resourceLength =>
              if p + rel + MAGIC.length + headLen config + resourceLength + ENDID.length >
                  fileData.length then Except.error RemoveErr.beyondEof
              else if (fileData.drop
                  (p + rel + MAGIC.length + headLen config + resourceLength)).take
                    ENDID.length ≠ ENDID then Except.error RemoveErr.endMarker
              else Except.ok (p + rel,
                p + rel + MAGIC.length + headLen config + resourceLength + ENDID.length)
          else removeSearch fileData tq (p + rel + 1)) = Except.ok (s, e) →
        ∃ config L,
          (fileData.drop s).take MAGIC.length = MAGIC ∧
          decodeHead (fileData.drop (s + MAGIC.length)) = some config ∧
          trim config.id = tq ∧
          parseNat (trim config.length) = some L ∧
          e = s + MAGIC.length + headLen config + L + ENDID.length ∧
          e ≤ fileData.length ∧
          (fileData.drop (s + MAGIC.length + headLen config + L)).take ENDID.length = ENDID := by
      intro config hdec hm
      by_cases hid : trim config.id = tq
      · rw [if_pos hid] at hm
        revert hm
        cases hp : parseNat (trim config.length) with
        | none => intro hm; cases hm
        | some L =>
          intro hm
          dsimp only at hm
          by_cases hb : p + rel + MAGIC.length + headLen config + L + ENDID.length >
              fileData.length
          · rw [if_pos hb] at hm; cases hm
          · rw [if_neg hb] at hm
            by_cases hend : (fileData.drop
                (p + rel + MAGIC.length + headLen config + L)).take ENDID.length ≠ ENDID
            · rw [if_pos hend] at hm; cases hm
            · rw [if_neg hend] at hm
              cases hm
              rw [not_not] at hend
              exact ⟨config, L, hmag, hdec, hid, hp, rfl, by omega, hend⟩
      · rw [if_neg hid] at hm
        exact hrec hm
    revert h
    split_ifs with h1 h2
    · intro h
      revert h
      cases hdec : decodeHead (fileData.drop (p + rel + MAGIC.length)) with
      | none => exact hrec
      | some config => exact hdecode config hdec
    · exact hrec
    · intro h
      revert h
      cases hdec : decodeHead (fileData.drop (p + rel + MAGIC.length)) with
      | none => exact hrec
      | some config => exact hdecode config hdec
termination_by fileData.length + 1 - p
decreasing_by
  all_goals
    have hb := findMagicInBound _ _ hf
    rw [List.length_drop] at hb
    omega

/-- Success of the `remove_resource` search on a container holding one
well-formed entry after arbitrary host bytes (and arbitrary bytes after the
entry): the search returns exactly the entry's byte range. -/
theorem removeSearch_entry_at (host hb p post : List Nat) (cfg : ResourceHead) (tq : List Char)
    (hnomagic : findMagicIn (host ++ MAGIC ++ hb ++ p ++ ENDID ++ post) = some host.length)
    (hdec : decodeHead (hb ++ p ++ ENDID ++ post) = some cfg)
    (hhl : headLen cfg = hb.length)
    (hparse : parseNat (trim cfg.length) = some p.length)
    (hmatch : trim cfg.id = tq) :
    removeSearch (host ++ MAGIC ++ hb ++ p ++ ENDID ++ post) tq 0 =
      .ok (host.length,
        host.length + MAGIC.length + hb.length + p.length + ENDID.length) := by
  have hC : (host ++ MAGIC ++ hb ++ p ++ ENDID ++ post).length =
      host.length + 16 + hb.length + p.length + 5 + post.length := by
    simp [List.length_append, MAGIC, ENDID]
    omega
  have hshape1 : host ++ MAGIC ++ hb ++ p ++ ENDID ++ post =
      (host ++ MAGIC) ++ (hb ++ p ++ ENDID ++ post) := by
    simp [List.append_assoc]
  have hdrop1 : (host ++ MAGIC ++ hb ++ p ++ ENDID ++ post).drop (host.length + MAGIC.length) =
      hb ++ p ++ ENDID ++ post := by
    rw [hshape1]
    exact drop_append_of_length _ _ _ (by simp)
  have hshape2 : host ++ MAGIC ++ hb ++ p ++ ENDID ++ post =
      (host ++ MAGIC ++ hb ++ p) ++ (ENDID ++ post) := by
    simp [List.append_assoc]
  have hdrop2 : (host ++ MAGIC ++ hb ++ p ++ ENDID ++ post).drop
      (host.length + MAGIC.length + hb.length + p.length) = ENDID ++ post := by
    rw [hshape2]
    exact drop_append_of_length _ _ _ (by simp [MAGIC]; omega)
  have hfind : findMagicIn ((host ++ MAGIC ++ hb ++ p ++ ENDID ++ post).drop 0) =
      some host.length := by
    rw [List.drop_zero]; exact hnomagic
  rw [removeSearch, hfind]
  dsimp only
  simp only [Nat.zero_add]
  have hconfig : (if host.length + MAGIC.length + MAX_HEADER_SIZE ≤
        (host ++ MAGIC ++ hb ++ p ++ ENDID ++ post).length then
      decodeHead ((host ++ MAGIC ++ hb ++ p ++ ENDID ++ post).drop
        (host.length + MAGIC.length))
    else if (host ++ MAGIC ++ hb ++ p ++ ENDID ++ post).length - host.length - MAGIC.length
        = 0 then
      Option.none
    else
      decodeHead ((host ++ MAGIC ++ hb ++ p ++ ENDID ++ post).drop
        (host.length + MAGIC.length))) = some cfg := by
    rw [hdrop1]
    split_ifs with h1 h2
    · exact hdec
    · rw [show MAGIC.length = 16 from rfl] at h2; omega
    · exact hdec
  rw [hconfig]
  dsimp only
  rw [if_pos hmatch, hparse]
  dsimp only
  rw [hhl]
  rw [if_neg (by rw [show MAGIC.length = 16 from rfl, show ENDID.length = 5 from rfl]; omega)]
  rw [if_neg (by
    rw [hdrop2, take_append_of_length _ _ _ rfl]
    exact fun hne => hne rfl)]

/-! ## Claim C7 — removal excises exactly the matched range -/

/-- **C7** (confirmed).  When `remove_resource` succeeds on an entry
occupying `[s, e)` (`e` including the trailing end sentinel), the written
output is the original container minus exactly that range: every byte below
`s` is unchanged at its old index, every byte from `e` on is unchanged and
shifted down by `e - s`, and the length shrinks by exactly `e - s`. -/
theorem c7_remove_excises_exact_range (fileData : List Nat) (q : List Char)
    (out : List Nat) (s e : Nat)
    (hse : removeSearch fileData (trim q) 0 = .ok (s, e))
    (hout : removeResource fileData q = .ok out) :
    out = fileData.take s ++ fileData.drop e ∧
    (∀ i, i < s → out.get? i = fileData.get? i) ∧
    (∀ j, e ≤ j → out.get? (s + (j - e)) = fileData.get? j) ∧
    out.length + (e - s) = fileData.length := by
  obtain ⟨config, L, -, -, -, -, he, helen, -⟩ := removeSearch_ok_spec fileData (trim q) 0 s e hse
  have hslen : s ≤ fileData.length := by
    rw [show MAGIC.length = 16 from rfl, show ENDID.length = 5 from rfl] at he
    omega
  have hse' : s ≤ e := by
    rw [show MAGIC.length = 16 from rfl, show ENDID.length = 5 from rfl] at he
    omega
  rw [removeResource, hse] at hout
  cases hout
  have htklen : (fileData.take s).length = s := by
    rw [List.length_take]
    omega
  refine ⟨rfl, ?_, ?_, ?_⟩
  · intro i hi
    rw [List.get?_append (by omega)]
    exact List.get?_take (by omega)
  · intro j hj
    rw [List.get?_append_right (by omega)]
    rw [htklen]
    rw [show s + (j - e) - s = j - e from by omega]
    rw [List.get?_drop]
    rw [show e + (j - e) = j from by omega]
  · rw [List.length_append, htklen, List.length_drop]
    omega

/-- **C7** witness: a concrete removal from host bytes `[7,7]` with one
byte `[8]` after the entry; the surviving bytes match index-for-index. -/
theorem c7_witness :
    removeSearch ([7, 7] ++ MAGIC ++
        encodeHead ⟨"1.0.0".data, ['r'], ['n'], ['2'], ['2'], CompressMode.none⟩ ++
        [1, 2] ++ ENDID ++ [8]) (trim ['r']) 0 =
      .ok (2, 2 + MAGIC.length +
        (encodeHead ⟨"1.0.0".data, ['r'], ['n'], ['2'], ['2'], CompressMode.none⟩).length +
        2 + ENDID.length) ∧
    removeResource ([7, 7] ++ MAGIC ++
        encodeHead ⟨"1.0.0".data, ['r'], ['n'], ['2'], ['2'], CompressMode.none⟩ ++
        [1, 2] ++ ENDID ++ [8]) ['r'] =
      .ok (([7, 7] ++ MAGIC ++
        encodeHead ⟨"1.0.0".data, ['r'], ['n'], ['2'], ['2'], CompressMode.none⟩ ++
        [1, 2] ++ ENDID ++ [8]).take 2 ++
        ([7, 7] ++ MAGIC ++
        encodeHead ⟨"1.0.0".data, ['r'], ['n'], ['2'], ['2'], CompressMode.none⟩ ++
        [1, 2] ++ ENDID ++ [8]).drop (2 + MAGIC.length +
          (encodeHead ⟨"1.0.0".data, ['r'], ['n'], ['2'], ['2'], CompressMode.none⟩).length +
          2 + ENDID.length)) ∧
    (∀ i, i < 2 →
      (([7, 7] ++ MAGIC ++
        encodeHead ⟨"1.0.0".data, ['r'], ['n'], ['2'], ['2'], CompressMode.none⟩ ++
        [1, 2] ++ ENDID ++ [8]).take 2 ++
        ([7, 7] ++ MAGIC ++
        encodeHead ⟨"1.0.0".data, ['r'], ['n'], ['2'], ['2'], CompressMode.none⟩ ++
        [1, 2] ++ ENDID ++ [8]).drop (2 + MAGIC.length +
          (encodeHead ⟨"1.0.0".data, ['r'], ['n'], ['2'], ['2'], CompressMode.none⟩).length +
          2 + ENDID.length)).get? i =
      ([7, 7] ++ MAGIC ++
        encodeHead ⟨"1.0.0".data, ['r'], ['n'], ['2'], ['2'], CompressMode.none⟩ ++
        [1, 2] ++ ENDID ++ [8]).get? i) := by
  have hse := removeSearch_entry_at [7, 7]
    (encodeHead ⟨"1.0.0".data, ['r'], ['n'], ['2'], ['2'], CompressMode.none⟩)
    [1, 2] [8] ⟨"1.0.0".data, ['r'], ['n'], ['2'], ['2'], CompressMode.none⟩ (trim ['r'])
    (by decide) (by decide) (by decide) (by decide) (by decide)
  have hout : removeResource ([7, 7] ++ MAGIC ++
      encodeHead ⟨"1.0.0".data, ['r'], ['n'], ['2'], ['2'], CompressMode.none⟩ ++
      [1, 2] ++ ENDID ++ [8]) ['r'] =
      .ok (([7, 7] ++ MAGIC ++
        encodeHead ⟨"1.0.0".data, ['r'], ['n'], ['2'], ['2'], CompressMode.none⟩ ++
        [1, 2] ++ ENDID ++ [8]).take 2 ++
        ([7, 7] ++ MAGIC ++
        encodeHead ⟨"1.0.0".data, ['r'], ['n'], ['2'], ['2'], CompressMode.none⟩ ++
        [1, 2] ++ ENDID ++ [8]).drop (2 + MAGIC.length +
          (encodeHead ⟨"1.0.0".data, ['r'], ['n'], ['2'], ['2'], CompressMode.none⟩).length +
          2 + ENDID.length)) := by
    rw [removeResource, hse]
    rfl
  obtain ⟨-, hpre, -, -⟩ := c7_remove_excises_exact_range _ ['r'] _ _ _ hse hout
  exact ⟨hse, hout, hpre⟩

/-! ## Claim C4 — remove's validated search (no version gate) -/

/-- **C4** (corrected).  `remove_resource` performs a fully validated
single-target search *except for the version gate*: on success the start
sentinel was matched, the header decoded, the trimmed ids agreed, the
`length` field parsed, the entry extent was bounds-checked against the file
size and the end sentinel was verified — and the excised range is exactly
the validated one.  (No version validation occurs; see the
counterexample.) -/
theorem c4_remove_validates_except_version (fileData : List Nat) (q : List Char)
    (out : List Nat)
    (hok : removeResource fileData q = .ok out) :
    ∃ s e config L,
      removeSearch fileData (trim q) 0 = .ok (s, e) ∧
      (fileData.drop s).take MAGIC.length = MAGIC ∧
      decodeHead (fileData.drop (s + MAGIC.length)) = some config ∧
      trim config.id = trim q ∧
      parseNat (trim config.length) = some L ∧
      e = s + MAGIC.length + headLen config + L + ENDID.length ∧
      e ≤ fileData.length ∧
      (fileData.drop (s + MAGIC.length + headLen config + L)).take ENDID.length = ENDID ∧
      out = fileData.take s ++ fileData.drop e := by
  rw [removeResource] at hok
  revert hok
  cases hrs : removeSearch fileData (trim q) 0 with
  | error err => intro hok; cases hok
  | ok se =>
    intro hok
    obtain ⟨s, e⟩ := se
    cases hok
    obtain ⟨config, L, h1, h2, h3, h4, h5, h6, h7⟩ :=
      removeSearch_ok_spec fileData (trim q) 0 s e hrs
    exact ⟨s, e, config, L, rfl, h1, h2, h3, h4, h5, h6, h7, rfl⟩

/-! ## Claim C9 — trimmed-id matching -/

/-- **C9** (confirmed).  Export, remove and the list filter compare the
requested id and the stored id after trimming whitespace from both, so
wrapping any amount of leading/trailing whitespace around the query changes
nothing, and the trimmed query is what an entry's (trimmed) stored id is
matched against. -/
theorem c9_trim_insensitive_id_matching (file : List Nat) (q u v : List Char)
    (dec : List Nat → Option (List Nat)) (configs : List ResourceHead)
    (hu : ∀ c ∈ u, isRustWhitespace c = true)
    (hv : ∀ c ∈ v, isRustWhitespace c = true) :
    exportResource file (u ++ q ++ v) dec = exportResource file q dec ∧
    removeResource file (u ++ q ++ v) = removeResource file q ∧
    listFilter configs (some (u ++ q ++ v)) = listFilter configs (some q) ∧
    trim (u ++ q ++ v) = trim q := by
  have ht := trim_append_ws u q v hu hv
  refine ⟨?_, ?_, ?_, ht⟩
  · rw [exportResource, exportResource, ht]
  · rw [removeResource, removeResource, ht]
  · rw [listFilter, listFilter, ht]

/-- **C9** witness: a space-and-tab-wrapped query behaves identically to
the bare query on a concrete container. -/
theorem c9_witness :
    exportResource [1, 2, 3] ([' '] ++ ['a'] ++ ['\t']) (fun _ => Option.none) =
      exportResource [1, 2, 3] ['a'] (fun _ => Option.none) ∧
    removeResource [1, 2, 3] ([' '] ++ ['a'] ++ ['\t']) =
      removeResource [1, 2, 3] ['a'] ∧
    listFilter [] (some ([' '] ++ ['a'] ++ ['\t'])) = listFilter [] (some ['a']) ∧
    trim ([' '] ++ ['a'] ++ ['\t']) = trim ['a'] :=
  c9_trim_insensitive_id_matching [1, 2, 3] ['a'] [' '] ['\t'] (fun _ => Option.none) []
    (by decide) (by decide)

/-- Success of the `export_resource` scan on a container holding one
well-formed entry after arbitrary host bytes, small enough to sit inside the
first scan window with the entry's header probed by the file re-read branch:
the scan hands the entry to the matched-entry block. -/
theorem exportScan_entry_at (host hb p post : List Nat) (cfg : ResourceHead) (tq : List Char)
    (dec : List Nat → Option (List Nat))
    (hnomagic : findMagicIn (host ++ MAGIC ++ hb ++ p ++ ENDID ++ post) = some host.length)
    (hdec : decodeHead (hb ++ p ++ ENDID ++ post) = some cfg)
    (hmatch : trim cfg.id = tq)
    (hclen : (host ++ MAGIC ++ hb ++ p ++ ENDID ++ post).length ≤ SEARCH_BUFFER_SIZE)
    (hsmall : (host ++ MAGIC ++ hb ++ p ++ ENDID ++ post).length <
      host.length + MAGIC.length + MAX_HEADER_SIZE) :
    exportScan (host ++ MAGIC ++ hb ++ p ++ ENDID ++ post) tq dec 0 =
      exportFound (host ++ MAGIC ++ hb ++ p ++ ENDID ++ post) host.length cfg dec := by
  have hC : (host ++ MAGIC ++ hb ++ p ++ ENDID ++ post).length =
      host.length + 16 + hb.length + p.length + 5 + post.length := by
    simp [List.length_append, MAGIC, ENDID]
    omega
  have hdrop1 : (host ++ MAGIC ++ hb ++ p ++ ENDID ++ post).drop (host.length + MAGIC.length) =
      hb ++ p ++ ENDID ++ post := by
    rw [show host ++ MAGIC ++ hb ++ p ++ ENDID ++ post =
      (host ++ MAGIC) ++ (hb ++ p ++ ENDID ++ post) from by simp [List.append_assoc]]
    exact drop_append_of_length _ _ _ (by simp)
  have hrlen : (hb ++ p ++ ENDID ++ post).length < MAX_HEADER_SIZE := by
    have : (host ++ MAGIC ++ hb ++ p ++ ENDID ++ post).length =
        host.length + MAGIC.length + (hb ++ p ++ ENDID ++ post).length := by
      simp [List.length_append]
      omega
    omega
  have hbuf : ((host ++ MAGIC ++ hb ++ p ++ ENDID ++ post).drop 0).take SEARCH_BUFFER_SIZE =
      host ++ MAGIC ++ hb ++ p ++ ENDID ++ post := by
    rw [List.drop_zero]
    exact List.take_of_length_le hclen
  have hwl : exportWindowLoop (host ++ MAGIC ++ hb ++ p ++ ENDID ++ post) tq dec 0
      (host ++ MAGIC ++ hb ++ p ++ ENDID ++ post) 0 =
      some (exportFound (host ++ MAGIC ++ hb ++ p ++ ENDID ++ post) host.length cfg dec) := by
    have hfind : findMagicIn ((host ++ MAGIC ++ hb ++ p ++ ENDID ++ post).drop 0) =
        some host.length := by
      rw [List.drop_zero]; exact hnomagic
    rw [exportWindowLoop, hfind]
    dsimp only
    simp only [Nat.zero_add]
    have hth : tryHeader (host ++ MAGIC ++ hb ++ p ++ ENDID ++ post) 0
        (host ++ MAGIC ++ hb ++ p ++ ENDID ++ post) host.length = some cfg := by
      rw [tryHeader]
      rw [if_neg (by omega)]
      simp only [Nat.zero_add]
      rw [hdrop1, List.take_of_length_le (by omega)]
      rw [if_neg (by simp [List.length_append, ENDID])]
      exact hdec
    rw [hth]
    dsimp only
    rw [if_pos hmatch]
  rw [exportScan]
  rw [hbuf]
  rw [if_neg (by omega)]
  rw [hwl]

/-! ## Claim C1 — the post-export size verification -/

/-- **C1** (corrected).  The final verification of `export_resource`
compares the header's `size` field with the length reported by the original
output file *handle* — the number of stored payload bytes written — not
with the byte length of the file finally at the output path.  For an
uncompressed resource the two coincide, so the claim's behaviour holds
there; for a compressed resource the decompressed result's length is never
checked: the call succeeds whenever the *stored* (compressed) length equals
`size`, whatever length the decompressed output file has, and on a
stored-length/size mismatch the output file is deleted and the call fails
with the size-mismatch error. -/
theorem c1_size_check_compares_stored_length
    (host hb p post dbytes : List Nat) (cfg : ResourceHead) (q : List Char)
    (dec : List Nat → Option (List Nat)) (S : Nat)
    (hnomagic : findMagicIn (host ++ MAGIC ++ hb ++ p ++ ENDID ++ post) = some host.length)
    (hdec : decodeHead (hb ++ p ++ ENDID ++ post) = some cfg)
    (hhl : headLen cfg = hb.length)
    (hparse : parseNat (trim cfg.length) = some p.length)
    (hmatch : trim cfg.id = trim q)
    (hclen : (host ++ MAGIC ++ hb ++ p ++ ENDID ++ post).length ≤ SEARCH_BUFFER_SIZE)
    (hsmall : (host ++ MAGIC ++ hb ++ p ++ ENDID ++ post).length <
      host.length + MAGIC.length + MAX_HEADER_SIZE)
    (hver : cfg.version = "1.0.0".data)
    (hS : parseNat (trim cfg.size) = some S) :
    (cfg.compress = CompressMode.compress → dec p = some dbytes →
      (p.length = S → exportResource (host ++ MAGIC ++ hb ++ p ++ ENDID ++ post) q dec =
        ⟨.ok (), some dbytes⟩) ∧
      (p.length ≠ S → exportResource (host ++ MAGIC ++ hb ++ p ++ ENDID ++ post) q dec =
        ⟨.error .sizeMismatch, Option.none⟩)) ∧
    (cfg.compress = CompressMode.none →
      (p.length = S → exportResource (host ++ MAGIC ++ hb ++ p ++ ENDID ++ post) q dec =
        ⟨.ok (), some p⟩) ∧
      (p.length ≠ S → exportResource (host ++ MAGIC ++ hb ++ p ++ ENDID ++ post) q dec =
        ⟨.error .sizeMismatch, Option.none⟩)) := by
  have hC : (host ++ MAGIC ++ hb ++ p ++ ENDID ++ post).length =
      host.length + 16 + hb.length + p.length + 5 + post.length := by
    simp [List.length_append, MAGIC, ENDID]
    omega
  have hexp : exportResource (host ++ MAGIC ++ hb ++ p ++ ENDID ++ post) q dec =
      exportFound (host ++ MAGIC ++ hb ++ p ++ ENDID ++ post) host.length cfg dec := by
    rw [exportResource]
    exact exportScan_entry_at host hb p post cfg (trim q) dec hnomagic hdec hmatch hclen hsmall
  have hcv : compareVersion ("1.0.0".data) defaultHead.version = .ok Ordering.eq := by decide
  have hdropEnd : (host ++ MAGIC ++ hb ++ p ++ ENDID ++ post).drop
      (host.length + MAGIC.length + hb.length + p.length) = ENDID ++ post := by
    rw [show host ++ MAGIC ++ hb ++ p ++ ENDID ++ post =
      (host ++ MAGIC ++ hb ++ p) ++ (ENDID ++ post) from by simp [List.append_assoc]]
    exact drop_append_of_length _ _ _ (by simp [MAGIC]; omega)
  have hdropPay : (host ++ MAGIC ++ hb ++ p ++ ENDID ++ post).drop
      (host.length + MAGIC.length + hb.length) = p ++ (ENDID ++ post) := by
    rw [show host ++ MAGIC ++ hb ++ p ++ ENDID ++ post =
      (host ++ MAGIC ++ hb) ++ (p ++ (ENDID ++ post)) from by simp [List.append_assoc]]
    exact drop_append_of_length _ _ _ (by simp [MAGIC]; omega)
  have hfound : exportFound (host ++ MAGIC ++ hb ++ p ++ ENDID ++ post) host.length cfg dec =
      (if cfg.compress = CompressMode.compress then
        match dec p with
        | Option.none => ⟨.error .decompressFailed, some p⟩
        | some d =>
          if p.length ≠ S then ⟨.error .sizeMismatch, Option.none⟩ else ⟨.ok (), some d⟩
      else
        if p.length ≠ S then ⟨.error .sizeMismatch, Option.none⟩ else ⟨.ok (), some p⟩) := by
    have hb1 : ¬(host.length + MAGIC.length + hb.length + p.length + ENDID.length >
        (host ++ MAGIC ++ hb ++ p ++ ENDID ++ post).length) := by
      rw [hC, show ENDID.length = 5 from rfl, show MAGIC.length = 16 from rfl]
      omega
    have hb2 : ¬((List.take ENDID.length
        (List.drop (host.length + MAGIC.length + hb.length + p.length)
          (host ++ MAGIC ++ hb ++ p ++ ENDID ++ post))) ≠ ENDID) := by
      rw [hdropEnd, take_append_of_length _ _ _ rfl]
      exact fun hne => hne rfl
    rw [exportFound, hver, hcv]
    dsimp only
    rw [if_neg (by simp)]
    rw [hparse]
    dsimp only
    rw [hhl]
    rw [if_neg hb1]
    rw [if_neg hb2]
    rw [hdropPay, take_append_of_length _ _ _ rfl]
    by_cases hcomp : cfg.compress = CompressMode.compress
    · rw [if_pos hcomp, if_pos hcomp]
      cases hdp : dec p with
      | none => rfl
      | some d =>
        dsimp only
        rw [hS]
    · rw [if_neg hcomp, if_neg hcomp]
      rw [hS]
  constructor
  · intro hcomp hdecomp
    constructor
    · intro heq
      rw [hexp, hfound, if_pos hcomp, hdecomp]
      dsimp only
      rw [if_neg (by omega)]
    · intro hne
      rw [hexp, hfound, if_pos hcomp, hdecomp]
      dsimp only
      rw [if_pos hne]
  · intro hcomp
    constructor
    · intro heq
      rw [hexp, hfound, if_neg (by rw [hcomp]; exact fun hc => by cases hc)]
      rw [if_neg (by omega)]
    · intro hne
      rw [hexp, hfound, if_neg (by rw [hcomp]; exact fun hc => by cases hc)]
      rw [if_pos hne]

/-- **C1** counterexample to the claim as stated: a compressed entry whose
stored (compressed) payload `[9,9]` has length 2 = `size`, but whose
decompressed output is `[1,2,3,4,5]`.  The export call *succeeds* and
leaves an output file of 5 bytes although the header's `size` says 2 — the
resulting file's byte length is never compared. -/
theorem c1_counterexample :
    exportResource (MAGIC ++
        encodeHead ⟨"1.0.0".data, ['c'], ['n'], ['2'], ['2'], CompressMode.compress⟩ ++
        [9, 9] ++ ENDID) ['c'] (fun _ => some [1, 2, 3, 4, 5]) =
      ⟨.ok (), some [1, 2, 3, 4, 5]⟩ ∧
    parseNat (trim
      (⟨"1.0.0".data, ['c'], ['n'], ['2'], ['2'], CompressMode.compress⟩ :
        ResourceHead).size) = some 2 ∧
    [1, 2, 3, 4, 5].length ≠ 2 := by
  have hscan : exportScan (MAGIC ++
      encodeHead ⟨"1.0.0".data, ['c'], ['n'], ['2'], ['2'], CompressMode.compress⟩ ++
      [9, 9] ++ ENDID) (trim ['c']) (fun _ => some [1, 2, 3, 4, 5]) 0 =
      exportFound (MAGIC ++
        encodeHead ⟨"1.0.0".data, ['c'], ['n'], ['2'], ['2'], CompressMode.compress⟩ ++
        [9, 9] ++ ENDID) 0
        ⟨"1.0.0".data, ['c'], ['n'], ['2'], ['2'], CompressMode.compress⟩
        (fun _ => some [1, 2, 3, 4, 5]) :=
    exportScan_entry_at []
      (encodeHead ⟨"1.0.0".data, ['c'], ['n'], ['2'], ['2'], CompressMode.compress⟩)
      [9, 9] [] ⟨"1.0.0".data, ['c'], ['n'], ['2'], ['2'], CompressMode.compress⟩
      (trim ['c']) (fun _ => some [1, 2, 3, 4, 5])
      (by decide) (by decide) (by decide) (by decide) (by decide)
  refine ⟨?_, by decide, by decide⟩
  rw [exportResource, hscan]
  decide

/-- **C1** witness: on the same kind of compressed entry the success branch
of the (corrected) statement is reachable: stored length 2 = `size` 2, so
the call succeeds and the output file holds the decompressed bytes. -/
theorem c1_witness :
    (⟨"1.0.0".data, ['w'], ['n'], ['2'], ['2'], CompressMode.compress⟩ :
      ResourceHead).compress = CompressMode.compress ∧
    exportResource (MAGIC ++
        encodeHead ⟨"1.0.0".data, ['w'], ['n'], ['2'], ['2'], CompressMode.compress⟩ ++
        [4, 4] ++ ENDID) ['w'] (fun _ => some [6, 6, 6]) =
      ⟨.ok (), some [6, 6, 6]⟩ := by
  have h := c1_size_check_compares_stored_length []
    (encodeHead ⟨"1.0.0".data, ['w'], ['n'], ['2'], ['2'], CompressMode.compress⟩)
    [4, 4] [] [6, 6, 6] ⟨"1.0.0".data, ['w'], ['n'], ['2'], ['2'], CompressMode.compress⟩
    ['w'] (fun _ => some [6, 6, 6]) 2
    (by decide) (by decide) (by decide) (by decide) (by decide) (by decide) (by decide)
    (by decide) (by decide)
  exact ⟨rfl, (h.1 rfl rfl).1 rfl⟩

/-- **C4** counterexample to the claim as stated: a well-formed entry whose
header version is `2.0.0` (not the supported `1.0.0`).  `export_resource`
rejects it with a version mismatch, but `remove_resource` — which performs
no version validation — happily excises it. -/
theorem c4_counterexample :
    removeResource (MAGIC ++
        encodeHead ⟨"2.0.0".data, ['v'], ['n'], ['3'], ['3'], CompressMode.none⟩ ++
        [1, 2, 3] ++ ENDID) ['v'] = .ok [] ∧
    decodeHead ((MAGIC ++
        encodeHead ⟨"2.0.0".data, ['v'], ['n'], ['3'], ['3'], CompressMode.none⟩ ++
        [1, 2, 3] ++ ENDID).drop MAGIC.length) =
      some ⟨"2.0.0".data, ['v'], ['n'], ['3'], ['3'], CompressMode.none⟩ ∧
    (⟨"2.0.0".data, ['v'], ['n'], ['3'], ['3'], CompressMode.none⟩ :
      ResourceHead).version ≠ defaultHead.version ∧
    (exportResource (MAGIC ++
        encodeHead ⟨"2.0.0".data, ['v'], ['n'], ['3'], ['3'], CompressMode.none⟩ ++
        [1, 2, 3] ++ ENDID) ['v'] (fun _ => Option.none)).res =
      .error ExportErr.versionMismatch := by
  have hse : removeSearch (MAGIC ++
      encodeHead ⟨"2.0.0".data, ['v'], ['n'], ['3'], ['3'], CompressMode.none⟩ ++
      [1, 2, 3] ++ ENDID) (trim ['v']) 0 =
      .ok (0, (MAGIC ++
        encodeHead ⟨"2.0.0".data, ['v'], ['n'], ['3'], ['3'], CompressMode.none⟩ ++
        [1, 2, 3] ++ ENDID).length) :=
    removeSearch_entry_at []
      (encodeHead ⟨"2.0.0".data, ['v'], ['n'], ['3'], ['3'], CompressMode.none⟩)
      [1, 2, 3] [] ⟨"2.0.0".data, ['v'], ['n'], ['3'], ['3'], CompressMode.none⟩
      (trim ['v']) (by decide) (by decide) (by decide) (by decide) (by decide)
  have hscan : exportScan (MAGIC ++
      encodeHead ⟨"2.0.0".data, ['v'], ['n'], ['3'], ['3'], CompressMode.none⟩ ++
      [1, 2, 3] ++ ENDID) (trim ['v']) (fun _ => Option.none) 0 =
      exportFound (MAGIC ++
        encodeHead ⟨"2.0.0".data, ['v'], ['n'], ['3'], ['3'], CompressMode.none⟩ ++
        [1, 2, 3] ++ ENDID) 0
        ⟨"2.0.0".data, ['v'], ['n'], ['3'], ['3'], CompressMode.none⟩
        (fun _ => Option.none) :=
    exportScan_entry_at []
      (encodeHead ⟨"2.0.0".data, ['v'], ['n'], ['3'], ['3'], CompressMode.none⟩)
      [1, 2, 3] [] ⟨"2.0.0".data, ['v'], ['n'], ['3'], ['3'], CompressMode.none⟩
      (trim ['v']) (fun _ => Option.none)
      (by decide) (by decide) (by decide) (by decide) (by decide)
  refine ⟨?_, by decide, by decide, ?_⟩
  · rw [removeResource, hse]
    rfl
  · rw [exportResource, hscan]
    decide

/-- **C4** witness: the amended search-validation theorem at a concrete
container (host byte `[9]`, id `w`, payload `[4,4]`). -/
theorem c4_witness :
    removeResource ([9] ++ MAGIC ++
        encodeHead ⟨"1.0.0".data, ['w'], ['n'], ['2'], ['2'], CompressMode.none⟩ ++
        [4, 4] ++ ENDID) ['w'] =
      .ok (([9] ++ MAGIC ++
        encodeHead ⟨"1.0.0".data, ['w'], ['n'], ['2'], ['2'], CompressMode.none⟩ ++
        [4, 4] ++ ENDID).take 1 ++
        ([9] ++ MAGIC ++
        encodeHead ⟨"1.0.0".data, ['w'], ['n'], ['2'], ['2'], CompressMode.none⟩ ++
        [4, 4] ++ ENDID).drop (1 + MAGIC.length +
          (encodeHead ⟨"1.0.0".data, ['w'], ['n'], ['2'], ['2'], CompressMode.none⟩).length +
          2 + ENDID.length)) ∧
    (∃ s e config L,
      removeSearch ([9] ++ MAGIC ++
        encodeHead ⟨"1.0.0".data, ['w'], ['n'], ['2'], ['2'], CompressMode.none⟩ ++
        [4, 4] ++ ENDID) (trim ['w']) 0 = .ok (s, e) ∧
      (([9] ++ MAGIC ++
        encodeHead ⟨"1.0.0".data, ['w'], ['n'], ['2'], ['2'], CompressMode.none⟩ ++
        [4, 4] ++ ENDID).drop s).take MAGIC.length = MAGIC ∧
      decodeHead (([9] ++ MAGIC ++
        encodeHead ⟨"1.0.0".data, ['w'], ['n'], ['2'], ['2'], CompressMode.none⟩ ++
        [4, 4] ++ ENDID).drop (s + MAGIC.length)) = some config ∧
      trim config.id = trim ['w'] ∧
      parseNat (trim config.length) = some L ∧
      e = s + MAGIC.length + headLen config + L + ENDID.length ∧
      e ≤ ([9] ++ MAGIC ++
        encodeHead ⟨"1.0.0".data, ['w'], ['n'], ['2'], ['2'], CompressMode.none⟩ ++
        [4, 4] ++ ENDID).length ∧
      (([9] ++ MAGIC ++
        encodeHead ⟨"1.0.0".data, ['w'], ['n'], ['2'], ['2'], CompressMode.none⟩ ++
        [4, 4] ++ ENDID).drop (s + MAGIC.length + headLen config + L)).take ENDID.length
        = ENDID ∧
      (([9] ++ MAGIC ++
        encodeHead ⟨"1.0.0".data, ['w'], ['n'], ['2'], ['2'], CompressMode.none⟩ ++
        [4, 4] ++ ENDID).take 1 ++
        ([9] ++ MAGIC ++
        encodeHead ⟨"1.0.0".data, ['w'], ['n'], ['2'], ['2'], CompressMode.none⟩ ++
        [4, 4] ++ ENDID).drop (1 + MAGIC.length +
          (encodeHead ⟨"1.0.0".data, ['w'], ['n'], ['2'], ['2'], CompressMode.none⟩).length +
          2 + ENDID.length)) = ([9] ++ MAGIC ++
        encodeHead ⟨"1.0.0".data, ['w'], ['n'], ['2'], ['2'], CompressMode.none⟩ ++
        [4, 4] ++ ENDID).take s ++
        ([9] ++ MAGIC ++
        encodeHead ⟨"1.0.0".data, ['w'], ['n'], ['2'], ['2'], CompressMode.none⟩ ++
        [4, 4] ++ ENDID).drop e) := by
  have hse : removeSearch ([9] ++ MAGIC ++
      encodeHead ⟨"1.0.0".data, ['w'], ['n'], ['2'], ['2'], CompressMode.none⟩ ++
      [4, 4] ++ ENDID) (trim ['w']) 0 =
      .ok (1, 1 + MAGIC.length +
        (encodeHead ⟨"1.0.0".data, ['w'], ['n'], ['2'], ['2'], CompressMode.none⟩).length +
        2 + ENDID.length) :=
    removeSearch_entry_at [9]
      (encodeHead ⟨"1.0.0".data, ['w'], ['n'], ['2'], ['2'], CompressMode.none⟩)
      [4, 4] [] ⟨"1.0.0".data, ['w'], ['n'], ['2'], ['2'], CompressMode.none⟩
      (trim ['w']) (by decide) (by decide) (by decide) (by decide) (by decide)
  have hout : removeResource ([9] ++ MAGIC ++
      encodeHead ⟨"1.0.0".data, ['w'], ['n'], ['2'], ['2'], CompressMode.none⟩ ++
      [4, 4] ++ ENDID) ['w'] =
      .ok (([9] ++ MAGIC ++
        encodeHead ⟨"1.0.0".data, ['w'], ['n'], ['2'], ['2'], CompressMode.none⟩ ++
        [4, 4] ++ ENDID).take 1 ++
        ([9] ++ MAGIC ++
        encodeHead ⟨"1.0.0".data, ['w'], ['n'], ['2'], ['2'], CompressMode.none⟩ ++
        [4, 4] ++ ENDID).drop (1 + MAGIC.length +
          (encodeHead ⟨"1.0.0".data, ['w'], ['n'], ['2'], ['2'], CompressMode.none⟩).length +
          2 + ENDID.length)) := by
    rw [removeResource, hse]
  obtain ⟨s, e, config, L, h1, h2, h3, h4, h5, h6, h7, h8, h9⟩ :=
    c4_remove_validates_except_version _ ['w'] _ hout
  exact ⟨hout, s, e, config, L, h1, h2, h3, h4, h5, h6, h7, h8, h9⟩

/-! ## Claim C5 — boundary-straddling entries and window overlap -/

/-- A scan window whose only sentinel hit is at `a`, where the probe yields
a header, reports exactly that header. -/
theorem scanWindowLoop_single (file buffer : List Nat) (fo a : Nat) (cfg : ResourceHead)
    (hfind : findMagicIn (buffer.drop 0) = some a)
    (hth : tryHeader file fo buffer a = some cfg)
    (hnone : findMagicIn (buffer.drop (a + 1)) = none) :
    scanWindowLoop file fo buffer 0 = [cfg] := by
  rw [scanWindowLoop, hfind]
  dsimp only
  simp only [Nat.zero_add]
  rw [hth]
  rw [scanWindowLoop, hnone]

/-- The window-overlap duplication of `find_resources_config`: a container
of host zeros sized so that the entry's start sentinel occupies the final
16 bytes of the first 512 KiB scan window.  The sentinel (and its
decodable header) lies in the `overlap_size` re-read region shared by
windows one and two, and since the scanner does not de-duplicate across
windows, the full scan reports the entry twice — never zero times. -/
theorem scan_overlap_duplicates (R : List Nat) (cfg : ResourceHead)
    (hdec : decodeHead R = some cfg)
    (hRpos : 0 < R.length) (hRlen : R.length ≤ 4091)
    (hnm : findMagicIn (MAGIC.drop 1 ++ R) = none) :
    findResourcesConfig (List.replicate 524272 0 ++ MAGIC ++ R) = [cfg, cfg] := by
  have hshape : List.replicate 524272 0 ++ MAGIC ++ R =
      (List.replicate 524272 0 ++ MAGIC) ++ R := rfl
  have hb0len : (List.replicate 524272 0 ++ MAGIC).length = 524288 := by
    rw [List.length_append, List.length_replicate, show MAGIC.length = 16 from rfl]
  have hClen : (List.replicate 524272 0 ++ MAGIC ++ R).length = 524288 + R.length := by
    rw [hshape, List.length_append, hb0len]
  have hmh : MAX_HEADER_SIZE = 4096 := rfl
  have hmagl : MAGIC.length = 16 := rfl
  -- window 0: the buffer is the zeros plus the full sentinel
  have hbuf0 : ((List.replicate 524272 0 ++ MAGIC ++ R).drop 0).take SEARCH_BUFFER_SIZE =
      List.replicate 524272 0 ++ MAGIC := by
    rw [List.drop_zero, hshape]
    exact take_append_of_length _ _ _ (by rw [hb0len]; rfl)
  have hfm : findMagicIn MAGIC = some 0 := by decide
  have hfind0 : findMagicIn ((List.replicate 524272 0 ++ MAGIC).drop 0) = some 524272 := by
    rw [List.drop_zero, findMagicIn_replicate_zero, hfm]
    rfl
  have hth0 : tryHeader (List.replicate 524272 0 ++ MAGIC ++ R) 0
      (List.replicate 524272 0 ++ MAGIC) 524272 = some cfg := by
    rw [tryHeader]
    rw [if_neg (by rw [hb0len, hmagl, hmh]; omega)]
    dsimp only
    have hdropN : (List.replicate 524272 0 ++ MAGIC ++ R).drop (0 + 524272 + MAGIC.length)
        = R := by
      rw [hshape]
      exact drop_append_of_length _ _ _ (by rw [hb0len]; rfl)
    rw [hdropN, List.take_of_length_le (by rw [hmh]; omega)]
    rw [if_neg (by omega)]
    exact hdec
  have hnone0 : findMagicIn ((List.replicate 524272 0 ++ MAGIC).drop (524272 + 1)) = none := by
    have hdd : (List.replicate 524272 0 ++ MAGIC).drop (524272 + 1) = MAGIC.drop 1 := by
      rw [List.drop_append_eq_append_drop, List.drop_replicate, List.length_replicate]
      rw [show (524272 - (524272 + 1) : Nat) = 0 from rfl, List.replicate_zero,
        List.nil_append, show (524272 + 1 - 524272 : Nat) = 1 from rfl]
    rw [hdd]
    exact findMagicIn_short _ (by decide)
  have hwin0 : scanWindowLoop (List.replicate 524272 0 ++ MAGIC ++ R) 0
      (List.replicate 524272 0 ++ MAGIC) 0 = [cfg] :=
    scanWindowLoop_single _ _ _ _ _ hfind0 hth0 hnone0
  -- window 1: 4096 zeros, then the sentinel and the entry tail
  have hlen2 : (List.replicate 4096 0 ++ (MAGIC ++ R)).length = 4112 + R.length := by
    rw [List.length_append, List.length_append, List.length_replicate, hmagl]
    omega
  have hdrop520176 : (List.replicate 524272 0 ++ MAGIC ++ R).drop 520176 =
      List.replicate 4096 0 ++ (MAGIC ++ R) := by
    rw [List.append_assoc, List.drop_append_eq_append_drop, List.drop_replicate,
      List.length_replicate]
    rw [show (524272 - 520176 : Nat) = 4096 from rfl,
      show (520176 - 524272 : Nat) = 0 from rfl, List.drop_zero]
  have hbuf2 : ((List.replicate 524272 0 ++ MAGIC ++ R).drop 520176).take SEARCH_BUFFER_SIZE =
      List.replicate 4096 0 ++ (MAGIC ++ R) := by
    rw [hdrop520176]
    exact List.take_of_length_le
      (by rw [hlen2, show SEARCH_BUFFER_SIZE = 524288 from rfl]; omega)
  have hfind2 : findMagicIn ((List.replicate 4096 0 ++ (MAGIC ++ R)).drop 0) = some 4096 := by
    rw [List.drop_zero, findMagicIn_replicate_zero, findMagicIn_magic_prefix]
    rfl
  have hth2 : tryHeader (List.replicate 524272 0 ++ MAGIC ++ R) 520176
      (List.replicate 4096 0 ++ (MAGIC ++ R)) 4096 = some cfg := by
    rw [tryHeader]
    rw [if_neg (by rw [hlen2, hmagl, hmh]; omega)]
    dsimp only
    have hdrop2N : (List.replicate 524272 0 ++ MAGIC ++ R).drop (520176 + 4096 + MAGIC.length)
        = R := by
      rw [hmagl]
      rw [show (520176 + 4096 + 16 : Nat) = 524288 from rfl]
      rw [hshape]
      exact drop_append_of_length _ _ _ (by rw [hb0len])
    rw [hdrop2N, List.take_of_length_le (by rw [hmh]; omega)]
    rw [if_neg (by omega)]
    exact hdec
  have hnone2 : findMagicIn ((List.replicate 4096 0 ++ (MAGIC ++ R)).drop (4096 + 1)) =
      none := by
    have hdd : (List.replicate 4096 0 ++ (MAGIC ++ R)).drop (4096 + 1) =
        MAGIC.drop 1 ++ R := by
      rw [List.drop_append_eq_append_drop, List.drop_replicate, List.length_replicate]
      rw [show (4096 - (4096 + 1) : Nat) = 0 from rfl, List.replicate_zero, List.nil_append,
        show (4096 + 1 - 4096 : Nat) = 1 from rfl]
      rw [List.drop_append_eq_append_drop, hmagl,
        show (1 - 16 : Nat) = 0 from rfl, List.drop_zero]
    rw [hdd]
    exact hnm
  have hwin2 : scanWindowLoop (List.replicate 524272 0 ++ MAGIC ++ R) 520176
      (List.replicate 4096 0 ++ (MAGIC ++ R)) 0 = [cfg] :=
    scanWindowLoop_single _ _ _ _ _ hfind2 hth2 hnone2
  -- assemble the two windows
  rw [findResourcesConfig, scanFile]
  dsimp only
  rw [hbuf0]
  rw [if_neg (by rw [hb0len]; omega)]
  rw [hwin0]
  rw [if_neg (by
    rw [hClen, show SEARCH_BUFFER_SIZE = 524288 from rfl]
    omega)]
  rw [show (0 + (SEARCH_BUFFER_SIZE - overlapSize) : Nat) = 520176 from rfl]
  rw [scanFile]
  dsimp only
  rw [hbuf2]
  rw [if_neg (by rw [hlen2]; omega)]
  rw [hwin2]
  rw [if_pos (by
    rw [hClen, show SEARCH_BUFFER_SIZE = 524288 from rfl]
    omega)]
  rfl

/-- **C5** (corrected).  An entry whose start sentinel lands inside the
window-overlap region (here: the last 16 bytes of the first 512 KiB window)
is discovered by the full scan in *both* windows that share the overlap:
it is never omitted (it is reported at least once), but it is reported
twice, not exactly once — the scanner does not de-duplicate across the
re-read region. -/
theorem c5_overlap_entry_reported_twice (R : List Nat) (cfg : ResourceHead)
    (hdec : decodeHead R = some cfg)
    (hRpos : 0 < R.length) (hRlen : R.length ≤ 4091)
    (hnm : findMagicIn (MAGIC.drop 1 ++ R) = none) :
    findResourcesConfig (List.replicate 524272 0 ++ MAGIC ++ R) = [cfg, cfg] ∧
    1 ≤ (findResourcesConfig (List.replicate 524272 0 ++ MAGIC ++ R)).count cfg ∧
    (findResourcesConfig (List.replicate 524272 0 ++ MAGIC ++ R)).count cfg = 2 := by
  have h := scan_overlap_duplicates R cfg hdec hRpos hRlen hnm
  refine ⟨h, ?_, ?_⟩ <;> rw [h] <;>
    simp [List.count_cons_self, List.count_nil]

/-- **C5** counterexample to the claim as stated: a concrete boundary
entry (zero-filled host sized to put the sentinel in the last 16 bytes of
the first scan window) is reported twice by the full scan, not exactly
once. -/
theorem c5_counterexample :
    (findResourcesConfig (List.replicate 524272 0 ++ MAGIC ++
      (encodeHead ⟨"1.0.0".data, ['d'], ['n'], ['3'], ['3'], CompressMode.none⟩ ++
        [1, 2, 3] ++ ENDID))).count
      ⟨"1.0.0".data, ['d'], ['n'], ['3'], ['3'], CompressMode.none⟩ ≠ 1 := by
  rw [scan_overlap_duplicates
    (encodeHead ⟨"1.0.0".data, ['d'], ['n'], ['3'], ['3'], CompressMode.none⟩ ++
      [1, 2, 3] ++ ENDID)
    ⟨"1.0.0".data, ['d'], ['n'], ['3'], ['3'], CompressMode.none⟩
    (by decide) (by decide) (by decide) (by decide)]
  decide

/-- **C5** witness: the duplication theorem at a second concrete boundary
entry. -/
theorem c5_witness :
    findResourcesConfig (List.replicate 524272 0 ++ MAGIC ++
      (encodeHead ⟨"1.0.0".data, ['e'], ['m'], ['2'], ['2'], CompressMode.none⟩ ++
        [4, 5] ++ ENDID)) =
      [⟨"1.0.0".data, ['e'], ['m'], ['2'], ['2'], CompressMode.none⟩,
       ⟨"1.0.0".data, ['e'], ['m'], ['2'], ['2'], CompressMode.none⟩] ∧
    1 ≤ (findResourcesConfig (List.replicate 524272 0 ++ MAGIC ++
      (encodeHead ⟨"1.0.0".data, ['e'], ['m'], ['2'], ['2'], CompressMode.none⟩ ++
        [4, 5] ++ ENDID))).count
      ⟨"1.0.0".data, ['e'], ['m'], ['2'], ['2'], CompressMode.none⟩ ∧
    (findResourcesConfig (List.replicate 524272 0 ++ MAGIC ++
      (encodeHead ⟨"1.0.0".data, ['e'], ['m'], ['2'], ['2'], CompressMode.none⟩ ++
        [4, 5] ++ ENDID))).count
      ⟨"1.0.0".data, ['e'], ['m'], ['2'], ['2'], CompressMode.none⟩ = 2 :=
  c5_overlap_entry_reported_twice
    (encodeHead ⟨"1.0.0".data, ['e'], ['m'], ['2'], ['2'], CompressMode.none⟩ ++
      [4, 5] ++ ENDID)
    ⟨"1.0.0".data, ['e'], ['m'], ['2'], ['2'], CompressMode.none⟩
    (by decide) (by decide) (by decide) (by decide)

/-! ## Claim C8 — header codec round-trip -/

/-- **C8** (confirmed).  For every header whose id is at most 64 scalar
values and whose name is at most 255, decoding the encoding yields the
header back.  The three remaining byte-length bounds are the inherent
`usize` bound on any Rust `String` (the id and name bounds below already
imply it for those two fields via `utf8Encode_length_le`). -/
theorem c8_decode_encode_roundtrip (h : ResourceHead)
    (hid : h.id.length ≤ MAX_ID_LENGTH)
    (hname : h.name.length ≤ MAX_NAME_LENGTH)
    (hv : (utf8Encode h.version).length < 18446744073709551616)
    (hl : (utf8Encode h.length).length < 18446744073709551616)
    (hs : (utf8Encode h.size).length < 18446744073709551616) :
    decodeHead (encodeHead h) = some h := by
  have hi : (utf8Encode h.id).length < 18446744073709551616 := by
    have := utf8Encode_length_le h.id
    rw [MAX_ID_LENGTH] at hid
    omega
  have hn : (utf8Encode h.name).length < 18446744073709551616 := by
    have := utf8Encode_length_le h.name
    rw [MAX_NAME_LENGTH] at hname
    omega
  have := decodeHead_encodeHead h [] hv hi hn hl hs
  rwa [List.append_nil] at this

/-- **C8** witness: the round-trip at the repository's own serialization
test header (`ResourceHead::new("test001", 27, 27, "resource.bin", None)`). -/
theorem c8_witness :
    decodeHead (encodeHead (resourceHeadMk "test001".data 27 27 "resource.bin".data
      CompressMode.none)) =
      some (resourceHeadMk "test001".data 27 27 "resource.bin".data CompressMode.none) :=
  c8_decode_encode_roundtrip _ (by decide) (by decide) (by decide) (by decide) (by decide)

end Appender
